import Mathlib

/-!
Shallow embedding of the GCC congestion-control core
(`src/interceptor/src/gcc/` of the webrtc repository): the numeric
primitives (`time.rs`, `data_rate.rs`), the link-capacity estimator
(`link_capacity_estimator.rs`), the AIMD rate controller
(`aimd_rate_control.rs`), the inter-arrival grouper
(`inter_arrival_delta.rs`) and the trendline estimator
(`trendline_estimator.rs`).

Modelling conventions:
* Rust `i64` values are embedded as `Int`; additions, subtractions and
  multiplications that the source performs on `i64` are wrapped to the
  two's-complement range with `wrap64` (release-profile semantics).
  Integer division `/` on `i64` truncates toward zero, which is `Int.tdiv`;
  a division whose divisor is zero, or the overflowing `MIN / -1`, panics
  in Rust and is embedded as `Option.none` where a claim depends on it.
* Rust `f64` computations are embedded as exact rational arithmetic over
  `Frac`, unreduced integer fractions with positive denominators compared
  by cross-multiplication (kept kernel-computable on purpose).  The two
  transcendental operations the source uses (`f64::sqrt`, `f64::powf`)
  have no rational counterpart and are supplied through a `FloatModel`
  parameter; theorems about control flow are proved for every
  `FloatModel`.  Casts `f64 as i64` truncate toward zero and saturate,
  which is `toI64` (`NaN`, which arises only from `0/0` and is modelled by
  a zero denominator, casts to `0` as in Rust); casts `i64 as f64` are
  embedded as the exact injection `Frac.ofInt`.
-/

namespace Gcc

/-- Largest `i64` value, `2^63 - 1`. -/
def i64Max : Int := 9223372036854775807

/-- Smallest `i64` value, `-2^63`. -/
def i64Min : Int := -9223372036854775808

/-- Two's-complement wrap-around into the `i64` range, the behaviour of
Rust release-profile `i64` addition/subtraction/multiplication. -/
def wrap64 (x : Int) : Int :=
  (x + 9223372036854775808) % 18446744073709551616 - 9223372036854775808

/-- The exact-value model of an `f64` quantity: an integer fraction
`num / den`.  All fractions built by the embedding have `den > 0`, except
that a division by (exact) zero produces `den = 0`, the model's stand-in
for the `NaN`/`±∞` results of `f64` division by zero. -/
structure Frac where
  num : Int
  den : Int
deriving DecidableEq, Repr

namespace Frac

/-- The exact cast `i64 as f64`. -/
def ofInt (n : Int) : Frac := ⟨n, 1⟩

def add (a b : Frac) : Frac := ⟨a.num * b.den + b.num * a.den, a.den * b.den⟩

def sub (a b : Frac) : Frac := ⟨a.num * b.den - b.num * a.den, a.den * b.den⟩

def mul (a b : Frac) : Frac := ⟨a.num * b.num, a.den * b.den⟩

def div (a b : Frac) : Frac :=
  let n := a.num * b.den
  let d := a.den * b.num
  if d < 0 then ⟨-n, -d⟩ else ⟨n, d⟩

/-- `f64::abs`. -/
def abs (a : Frac) : Frac := ⟨|a.num|, a.den⟩

/-- Value equality (`==` on exact `f64` values). -/
def beq (a b : Frac) : Bool := a.num * b.den = b.num * a.den

/-- Value order (`<` on exact `f64` values). -/
def blt (a b : Frac) : Bool := a.num * b.den < b.num * a.den

/-- Value order (`<=` on exact `f64` values). -/
def ble (a b : Frac) : Bool := a.num * b.den ≤ b.num * a.den

/-- `f64::min`. -/
def min (a b : Frac) : Frac := if blt a b then a else b

/-- `f64::max`. -/
def max (a b : Frac) : Frac := if blt a b then b else a

/-- `f64::clamp(x, lo, hi)`. -/
def clamp (x lo hi : Frac) : Frac := if blt x lo then lo else if blt hi x then hi else x

/-- Truncation toward zero (the well-defined part of `f64 as i64`);
a zero denominator (`NaN`) yields `0`, as the Rust cast does. -/
def trunc (a : Frac) : Int := Int.tdiv a.num a.den

/-- `f64::ceil` (for the positive denominators the embedding produces). -/
def ceil (a : Frac) : Int := -(Int.fdiv (-a.num) a.den)

end Frac

/-- The Rust cast `f64 as i64`: truncate toward zero, saturating at the
`i64` bounds; `NaN` casts to `0`. -/
def toI64 (q : Frac) : Int :=
  max i64Min (min i64Max q.trunc)

/-- Results of the two `f64` operations that have no exact rational
counterpart.  Every control-flow theorem is proved for an arbitrary model. -/
structure FloatModel where
  sqrt : Frac → Frac
  powf : Frac → Frac → Frac

/-- A concrete `FloatModel` used to evaluate witnesses and counterexamples;
`powf x 0 = 1` and `powf x 1 = x` agree with IEEE-754 `powf` exactly. -/
def fm0 : FloatModel where
  sqrt := fun _ => ⟨0, 1⟩
  powf := fun x y =>
    if y.beq ⟨0, 1⟩ then ⟨1, 1⟩ else if y.beq ⟨1, 1⟩ then x else ⟨0, 1⟩

/-! ### `time.rs` — `Timestamp` and `TimeDelta` -/

/-- `Timestamp`: a signed 64-bit microsecond count (`time.rs`). -/
structure Timestamp where
  us : Int
deriving DecidableEq, Repr

/-- `TimeDelta`: a signed 64-bit microsecond count (`time.rs`). -/
structure TimeDelta where
  us : Int
deriving DecidableEq, Repr

namespace TimeDelta

def fromMicros (v : Int) : TimeDelta := ⟨v⟩

def fromMillis (v : Int) : TimeDelta := ⟨wrap64 (1000 * v)⟩

def fromSeconds (v : Int) : TimeDelta := ⟨wrap64 (1000000 * v)⟩

def zero : TimeDelta := ⟨0⟩

def plusInfinity : TimeDelta := ⟨i64Max⟩

def minusInfinity : TimeDelta := ⟨i64Min⟩

/-- `seconds()`: `us / 1_000_000` with truncation toward zero. -/
def seconds (t : TimeDelta) : Int := Int.tdiv t.us 1000000

/-- `ms()`: `us / 1_000` with truncation toward zero. -/
def ms (t : TimeDelta) : Int := Int.tdiv t.us 1000

def isPlusInfinity (t : TimeDelta) : Bool := t.us = i64Max

def isMinusInfinity (t : TimeDelta) : Bool := t.us = i64Min

def isInfinite (t : TimeDelta) : Bool := t.isPlusInfinity || t.isMinusInfinity

def isFinite (t : TimeDelta) : Bool := !t.isInfinite

/-- `impl Add for TimeDelta` (plain wrapping `i64` addition). -/
def add (a b : TimeDelta) : TimeDelta := ⟨wrap64 (a.us + b.us)⟩

/-- `impl Sub for TimeDelta` (plain wrapping `i64` subtraction). -/
def sub (a b : TimeDelta) : TimeDelta := ⟨wrap64 (a.us - b.us)⟩

/-- `impl Mul<f64> for TimeDelta`: `(value as f64 * rhs) as i64`. -/
def mulF64 (a : TimeDelta) (q : Frac) : TimeDelta := ⟨toI64 ((Frac.ofInt a.us).mul q)⟩

/-- `Ord::clamp` on `TimeDelta` values. -/
def clamp (t lo hi : TimeDelta) : TimeDelta := ⟨max lo.us (min hi.us t.us)⟩

end TimeDelta

namespace Timestamp

def fromMicros (v : Int) : Timestamp := ⟨v⟩

def fromMillis (v : Int) : Timestamp := ⟨wrap64 (1000 * v)⟩

def plusInfinity : Timestamp := ⟨i64Max⟩

def minusInfinity : Timestamp := ⟨i64Min⟩

def isPlusInfinity (t : Timestamp) : Bool := t.us = i64Max

def isMinusInfinity (t : Timestamp) : Bool := t.us = i64Min

def isInfinite (t : Timestamp) : Bool := t.isPlusInfinity || t.isMinusInfinity

def isFinite (t : Timestamp) : Bool := !t.isInfinite

/-- `impl Sub<Timestamp> for Timestamp`: plain wrapping subtraction of the
microsecond counts, with no infinity handling (`time.rs` lines 131-139). -/
def sub (a b : Timestamp) : TimeDelta := ⟨wrap64 (a.us - b.us)⟩

end Timestamp

/-! ### `data_rate.rs` — `DataRate` and `DataSize` -/

/-- `DataRate`: bits per second as a signed 64-bit count. -/
structure DataRate where
  bps : Int
deriving DecidableEq, Repr

/-- `DataSize`: a byte count as a signed 64-bit value. -/
structure DataSize where
  bytes : Int
deriving DecidableEq, Repr

namespace DataRate

def fromBitsPerSec (v : Int) : DataRate := ⟨v⟩

def fromKilobitsPerSec (v : Int) : DataRate := ⟨wrap64 (1000 * v)⟩

def zero : DataRate := ⟨0⟩

def plusInfinity : DataRate := ⟨i64Max⟩

def minusInfinity : DataRate := ⟨i64Min⟩

def infinity : DataRate := plusInfinity

/-- `kbps()`: `value / 1000` with truncation toward zero. -/
def kbps (r : DataRate) : Int := Int.tdiv r.bps 1000

def isZero (r : DataRate) : Bool := r.bps = 0

def isPlusInfinity (r : DataRate) : Bool := r.bps = i64Max

def isMinusInfinity (r : DataRate) : Bool := r.bps = i64Min

def isInfinite (r : DataRate) : Bool := r.isPlusInfinity || r.isMinusInfinity

def isFinite (r : DataRate) : Bool := !r.isInfinite

/-- `impl Add for DataRate` (wrapping `i64` addition). -/
def add (a b : DataRate) : DataRate := ⟨wrap64 (a.bps + b.bps)⟩

/-- `impl Sub for DataRate` (wrapping `i64` subtraction). -/
def sub (a b : DataRate) : DataRate := ⟨wrap64 (a.bps - b.bps)⟩

/-- `impl Mul<f64> for DataRate`: `(value as f64 * rhs) as i64`.
`impl Mul<DataRate> for f64` delegates to this. -/
def mulF64 (a : DataRate) (q : Frac) : DataRate := ⟨toI64 ((Frac.ofInt a.bps).mul q)⟩

end DataRate

namespace DataSize

def fromBytes (v : Int) : DataSize := ⟨v⟩

def zero : DataSize := ⟨0⟩

/-- `microbits()`: `value * 8_000_000` (wrapping `i64` multiplication). -/
def microbits (s : DataSize) : Int := wrap64 (s.bytes * 8000000)

/-- `impl Div<f64> for DataSize`: `(value as f64 / rhs) as i64`.  A zero
divisor yields NaN in `f64`, which casts to `0`; the fraction model agrees
because the zero-denominator result truncates to `0`. -/
def divF64 (s : DataSize) (q : Frac) : DataSize := ⟨toI64 ((Frac.ofInt s.bytes).div q)⟩

/-- `impl Div<DataRate> for DataSize`:
`TimeDelta::from_micros(self.microbits() / rhs.bps())`.  The `i64`
division panics when the divisor is zero, or on the overflowing
`i64::MIN / -1`; those panics are embedded as `none`. -/
def divRate (s : DataSize) (r : DataRate) : Option TimeDelta :=
  if r.bps = 0 then none
  else if s.microbits = i64Min && r.bps = -1 then none
  else some ⟨Int.tdiv s.microbits r.bps⟩

/-- `impl Div<TimeDelta> for DataSize`:
`DataRate::from_bits_per_sec(self.microbits() / rhs.us())`, with the same
panicking divisions embedded as `none`. -/
def divDelta (s : DataSize) (t : TimeDelta) : Option DataRate :=
  if t.us = 0 then none
  else if s.microbits = i64Min && t.us = -1 then none
  else some ⟨Int.tdiv s.microbits t.us⟩

end DataSize

/-- `impl Mul<TimeDelta> for DataRate`:
`microbits = bps * us` (wrapping), then
`DataSize::from_bytes((microbits + 4000000) / 8000000)`. -/
def DataRate.mulDelta (r : DataRate) (t : TimeDelta) : DataSize :=
  ⟨Int.tdiv (wrap64 (wrap64 (r.bps * t.us) + 4000000)) 8000000⟩

/-! ### `link_capacity_estimator.rs` -/

/-- `LinkCapacityEstimator`: an optional EWMA of capacity in kbps and its
normalized deviation. -/
structure LinkCapacityEstimator where
  estimate_kbps : Option Frac
  deviation_kbps : Frac
deriving DecidableEq

namespace LinkCapacityEstimator

/-- `LinkCapacityEstimator::new()`. -/
def new : LinkCapacityEstimator := ⟨none, ⟨4, 10⟩⟩

def hasEstimate (lc : LinkCapacityEstimator) : Bool := lc.estimate_kbps.isSome

/-- `reset()`: clears the estimate; the deviation persists. -/
def reset (lc : LinkCapacityEstimator) : LinkCapacityEstimator :=
  { lc with estimate_kbps := none }

/-- `deviation_estimate_kbps`: `sqrt(deviation_kbps * estimate_kbps)`. -/
def deviationEstimateKbps (fm : FloatModel) (lc : LinkCapacityEstimator)
    (estimate_kbps : Frac) : Frac :=
  fm.sqrt (lc.deviation_kbps.mul estimate_kbps)

/-- `upper_bound()`: `estimate + 3·deviation_estimate` kbps, or `+∞`. -/
def upperBound (fm : FloatModel) (lc : LinkCapacityEstimator) : DataRate :=
  match lc.estimate_kbps with
  | some e =>
      DataRate.fromKilobitsPerSec
        (toI64 (e.add ((Frac.ofInt 3).mul (deviationEstimateKbps fm lc e))))
  | none => DataRate.infinity

/-- `lower_bound()`: `max(0, estimate − 3·deviation_estimate)` kbps, or zero. -/
def lowerBound (fm : FloatModel) (lc : LinkCapacityEstimator) : DataRate :=
  match lc.estimate_kbps with
  | some e =>
      DataRate.fromKilobitsPerSec
        (toI64 (Frac.max (Frac.ofInt 0)
          (e.sub ((Frac.ofInt 3).mul (deviationEstimateKbps fm lc e)))))
  | none => DataRate.zero

/-- `estimate()`: unwraps the optional estimate.  The `unwrap` panics when
no estimate is present; the panic is embedded as `none`. -/
def estimate? (lc : LinkCapacityEstimator) : Option DataRate :=
  lc.estimate_kbps.map (fun e => DataRate.fromKilobitsPerSec (toI64 e))

/-- `update(capacity_sample, alpha)`: seed or EWMA-update the estimate,
then update and clamp the normalized deviation to `[0.4, 2.5]`. -/
def update (lc : LinkCapacityEstimator) (capacity_sample : DataRate) (alpha : Frac) :
    LinkCapacityEstimator :=
  let sample_kbps : Frac := Frac.ofInt capacity_sample.kbps
  let est : Frac :=
    match lc.estimate_kbps with
    | some e => (((Frac.ofInt 1).sub alpha).mul e).add (alpha.mul sample_kbps)
    | none => sample_kbps
  let norm : Frac := Frac.max est (Frac.ofInt 1)
  let error_kbps : Frac := est.sub sample_kbps
  let dev : Frac :=
    (((Frac.ofInt 1).sub alpha).mul lc.deviation_kbps).add
      (((alpha.mul error_kbps).mul error_kbps).div norm)
  ⟨some est, dev.clamp ⟨4, 10⟩ ⟨25, 10⟩⟩

/-- `on_overuse_detected`: update with `α = 0.05`. -/
def onOveruseDetected (lc : LinkCapacityEstimator) (acknowledged_rate : DataRate) :
    LinkCapacityEstimator :=
  lc.update acknowledged_rate ⟨5, 100⟩

/-- `on_probe_rate`: update with `α = 0.5`. -/
def onProbeRate (lc : LinkCapacityEstimator) (probe_rate : DataRate) :
    LinkCapacityEstimator :=
  lc.update probe_rate ⟨5, 10⟩

end LinkCapacityEstimator

/-! ### `aimd_rate_control.rs` -/

/-- `RateControlState`. -/
inductive RateControlState where
  | hold
  | increase
  | decrease
deriving DecidableEq, Repr

/-- `BandwidthUsage`. -/
inductive BandwidthUsage where
  | normal
  | underusing
  | overusing
deriving DecidableEq, Repr

/-- `NetworkStateEstimate` (`network_types.rs`).  Only the
`link_capacity_lower` / `link_capacity_upper` fields are read by the
controller; the remaining fields of the source struct (confidence, the
various timestamps and delays) are never consulted by any code under
proof and are omitted. -/
structure NetworkStateEstimate where
  link_capacity_lower : DataRate
  link_capacity_upper : DataRate
deriving DecidableEq

/-- `RateControlInput`. -/
structure RateControlInput where
  bw_state : BandwidthUsage
  estimated_throughput : Option DataRate
deriving DecidableEq

/-- `AimdRateControlConfig`. -/
structure AimdRateControlConfig where
  beta : Frac
  no_bitrate_increase_in_alr : Bool
  subtract_additional_backoff_term : Bool
  disable_estimate_bounded_increase : Bool
  use_current_estimate_as_min_upper_bound : Bool

/-- `AimdRateControlConfig::default()`. -/
def AimdRateControlConfig.default : AimdRateControlConfig where
  beta := ⟨85, 100⟩
  no_bitrate_increase_in_alr := false
  subtract_additional_backoff_term := true
  disable_estimate_bounded_increase := false
  use_current_estimate_as_min_upper_bound := true

/-- The state of `AimdRateControl`. -/
structure AimdRateControl where
  min_configured_bitrate : DataRate
  max_configured_bitrate : DataRate
  current_bitrate : DataRate
  latest_estimated_throughput : DataRate
  link_capacity : LinkCapacityEstimator
  network_estimate : Option NetworkStateEstimate
  rate_control_state : RateControlState
  time_last_bitrate_change : Timestamp
  time_last_bitrate_decrease : Timestamp
  time_first_throughput_estimate : Timestamp
  bitrate_is_initialized : Bool
  beta : Frac
  in_alr : Bool
  rtt : TimeDelta
  send_side : Bool
  last_decrease : Option DataRate
  no_bitrate_increase_in_alr : Bool
  subtract_additional_backoff_term : Bool
  disable_estimate_bounded_increase : Bool
  use_current_estimate_as_min_upper_bound : Bool
deriving DecidableEq

namespace AimdRateControl

/-- `AimdRateControl::new(config, send_side)`. -/
def new (config : AimdRateControlConfig) (send_side : Bool) : AimdRateControl where
  min_configured_bitrate := DataRate.fromBitsPerSec 5000
  max_configured_bitrate := DataRate.fromKilobitsPerSec 30000
  current_bitrate := DataRate.fromKilobitsPerSec 30000
  latest_estimated_throughput := DataRate.fromKilobitsPerSec 30000
  link_capacity := LinkCapacityEstimator.new
  network_estimate := none
  rate_control_state := RateControlState.hold
  time_last_bitrate_change := Timestamp.minusInfinity
  time_last_bitrate_decrease := Timestamp.minusInfinity
  time_first_throughput_estimate := Timestamp.minusInfinity
  bitrate_is_initialized := false
  beta := config.beta
  in_alr := false
  rtt := TimeDelta.fromMillis 200
  send_side := send_side
  last_decrease := none
  no_bitrate_increase_in_alr := config.no_bitrate_increase_in_alr
  subtract_additional_backoff_term := config.subtract_additional_backoff_term
  disable_estimate_bounded_increase := config.disable_estimate_bounded_increase
  use_current_estimate_as_min_upper_bound := config.use_current_estimate_as_min_upper_bound

/-- `set_start_bitrate`. -/
def setStartBitrate (s : AimdRateControl) (start_bitrate : DataRate) : AimdRateControl :=
  { s with
    current_bitrate := start_bitrate
    latest_estimated_throughput := start_bitrate
    bitrate_is_initialized := true }

/-- `set_min_bitrate`: sets the floor and assigns
`current_bitrate = min(min_bitrate, current_bitrate)`. -/
def setMinBitrate (s : AimdRateControl) (min_bitrate : DataRate) : AimdRateControl :=
  { s with
    min_configured_bitrate := min_bitrate
    current_bitrate := ⟨min min_bitrate.bps s.current_bitrate.bps⟩ }

/-- `latest_estimate()`. -/
def latestEstimate (s : AimdRateControl) : DataRate := s.current_bitrate

/-- `set_rtt`. -/
def setRtt (s : AimdRateControl) (rtt : TimeDelta) : AimdRateControl := { s with rtt := rtt }

/-- `set_in_application_limited_region`. -/
def setInAlr (s : AimdRateControl) (in_alr : Bool) : AimdRateControl :=
  { s with in_alr := in_alr }

/-- `set_network_state_estimate`. -/
def setNetworkStateEstimate (s : AimdRateControl) (estimate : Option NetworkStateEstimate) :
    AimdRateControl := { s with network_estimate := estimate }

/-- `clamp_bitrate(new_bitrate)` (`aimd_rate_control.rs` lines 324-351). -/
def clampBitrate (s : AimdRateControl) (new_bitrate : DataRate) : DataRate :=
  let nb :=
    match s.network_estimate with
    | some ne =>
        let nb :=
          if !s.disable_estimate_bounded_increase && ne.link_capacity_upper.isFinite then
            let upper :=
              if s.use_current_estimate_as_min_upper_bound then
                (⟨max ne.link_capacity_upper.bps s.current_bitrate.bps⟩ : DataRate)
              else ne.link_capacity_upper
            (⟨min upper.bps new_bitrate.bps⟩ : DataRate)
          else new_bitrate
        if ne.link_capacity_lower.isFinite && nb.bps < s.current_bitrate.bps then
          (⟨min s.current_bitrate.bps
              (max nb.bps (ne.link_capacity_lower.mulF64 s.beta).bps)⟩ : DataRate)
        else nb
    | none => new_bitrate
  ⟨max nb.bps s.min_configured_bitrate.bps⟩

/-- `set_estimate(bitrate, at_time)`. -/
def setEstimate (s : AimdRateControl) (bitrate : DataRate) (at_time : Timestamp) :
    AimdRateControl :=
  let s := { s with bitrate_is_initialized := true }
  let prev_bitrate := s.current_bitrate
  let s := { s with
    current_bitrate := s.clampBitrate bitrate
    time_last_bitrate_change := at_time }
  if s.current_bitrate.bps < prev_bitrate.bps then
    { s with time_last_bitrate_decrease := at_time }
  else s

/-- `get_near_max_increase_rate_bps_per_second()`.  The source opens with
`assert!(!self.current_bitrate.is_zero())` and performs an `i64` division
by `response_time.us()`; both panic conditions are outside the rational
model, which is total, so theorems that depend on this function carry the
corresponding non-degeneracy hypotheses. -/
def nearMaxRawRateBps (s : AimdRateControl) : Int :=
  let frame_size : DataSize := s.current_bitrate.mulDelta (TimeDelta.fromMicros 33333)
  let packets_per_frame : Frac :=
    Frac.ofInt (((Frac.ofInt frame_size.bytes).div (Frac.ofInt 1200)).ceil)
  let avg_packet_size : DataSize := frame_size.divF64 packets_per_frame
  let response_time : TimeDelta :=
    (s.rtt.add (TimeDelta.fromMillis 100)).mulF64 (Frac.ofInt 2)
  Int.tdiv avg_packet_size.microbits response_time.us

/-- The tail of `get_near_max_increase_rate_bps_per_second()`:
`increase_rate_bps_per_second` (an `i64` quotient cast to `f64`) capped
below by `MIN_INCREASE_RATE_BPS_PER_SECOND = 4000.0`. -/
def getNearMaxIncreaseRateBpsPerSecond (s : AimdRateControl) : Frac :=
  Frac.max (Frac.ofInt 4000) (Frac.ofInt (nearMaxRawRateBps s))

/-- `get_expected_bandwidth_period()` (`aimd_rate_control.rs` lines 207-220). -/
def getExpectedBandwidthPeriod (s : AimdRateControl) : TimeDelta :=
  let increase_rate_bps_per_second := s.getNearMaxIncreaseRateBpsPerSecond
  match s.last_decrease with
  | none => TimeDelta.fromSeconds 3
  | some d =>
      let time_to_recover_decrease_seconds : Frac :=
        (Frac.ofInt d.bps).div increase_rate_bps_per_second
      let period := TimeDelta.fromSeconds (toI64 time_to_recover_decrease_seconds)
      TimeDelta.fromMicros (max 2000000 (min 50000000 period.us))

/-- `multiplicative_rate_increase(at_time, last_time, current_bitrate)`. -/
def multiplicativeRateIncrease (fm : FloatModel) (at_time last_time : Timestamp)
    (current_bitrate : DataRate) : DataRate :=
  let alpha : Frac :=
    if last_time.isFinite then
      fm.powf ⟨108, 100⟩
        (Frac.min (Frac.ofInt (at_time.sub last_time).seconds) (Frac.ofInt 1))
    else ⟨108, 100⟩
  ⟨max (current_bitrate.mulF64 (alpha.sub (Frac.ofInt 1))).bps 1000⟩

/-- `additive_rate_increase(at_time, last_time)`. -/
def additiveRateIncrease (s : AimdRateControl) (at_time last_time : Timestamp) : DataRate :=
  ⟨toI64 (s.getNearMaxIncreaseRateBpsPerSecond.mul
    (Frac.ofInt (at_time.sub last_time).seconds))⟩

/-- `change_state(input, at_time)` (`aimd_rate_control.rs` lines 380-398). -/
def changeState (s : AimdRateControl) (input : RateControlInput) (at_time : Timestamp) :
    AimdRateControl :=
  match input.bw_state with
  | BandwidthUsage.normal =>
      if s.rate_control_state = RateControlState.hold then
        { s with
          time_last_bitrate_change := at_time
          rate_control_state := RateControlState.increase }
      else s
  | BandwidthUsage.overusing =>
      if s.rate_control_state ≠ RateControlState.decrease then
        { s with rate_control_state := RateControlState.decrease }
      else s
  | BandwidthUsage.underusing =>
      { s with rate_control_state := RateControlState.hold }

/-- The `RateControlState::Hold` arm of the `match` in `change_bitrate`,
together with the closing `clamp_bitrate` assignment. -/
def holdBranch (s : AimdRateControl) : AimdRateControl :=
  { s with current_bitrate := s.clampBitrate s.current_bitrate }

/-- The `RateControlState::Increase` arm of the `match` in
`change_bitrate` (`aimd_rate_control.rs` lines 240-279), together with
the closing `clamp_bitrate` assignment. -/
def increaseBranch (fm : FloatModel) (s : AimdRateControl)
    (estimated_throughput : DataRate) (at_time : Timestamp) : AimdRateControl :=
  let s :=
    if estimated_throughput.bps > (s.link_capacity.upperBound fm).bps then
      { s with link_capacity := s.link_capacity.reset }
    else s
  let increase_limit : DataRate :=
    (estimated_throughput.mulF64 ⟨15, 10⟩).add (DataRate.fromKilobitsPerSec 10)
  let increase_limit : DataRate :=
    if s.send_side && s.in_alr && s.no_bitrate_increase_in_alr then
      s.current_bitrate
    else increase_limit
  let new_bitrate : Option DataRate :=
    if s.current_bitrate.bps < increase_limit.bps then
      let increased_bitrate : DataRate :=
        if s.link_capacity.hasEstimate then
          s.current_bitrate.add (s.additiveRateIncrease at_time s.time_last_bitrate_change)
        else
          s.current_bitrate.add
            (multiplicativeRateIncrease fm at_time s.time_last_bitrate_change
              s.current_bitrate)
      some ⟨min increased_bitrate.bps increase_limit.bps⟩
    else none
  let s := { s with time_last_bitrate_change := at_time }
  { s with current_bitrate := s.clampBitrate (new_bitrate.getD s.current_bitrate) }

/-- The part of the `Decrease` arm after `decreased_bitrate` is settled
(`aimd_rate_control.rs` lines 297-319, plus the closing `clamp_bitrate`
assignment): record `new_bitrate` and `last_decrease`, reset the link
capacity when the throughput is far below its lower bound, feed the
over-use sample, force `Hold`, stamp both times, and clamp. -/
def decreaseFinish (fm : FloatModel) (s : AimdRateControl)
    (estimated_throughput : DataRate) (at_time : Timestamp)
    (decreased_bitrate : DataRate) : AimdRateControl :=
  let new_bitrate : Option DataRate :=
    if decreased_bitrate.bps < s.current_bitrate.bps then some decreased_bitrate
    else none
  let s :=
    if s.bitrate_is_initialized && estimated_throughput.bps < s.current_bitrate.bps then
      { s with
        last_decrease := some
          (match new_bitrate with
           | some b => s.current_bitrate.sub b
           | none => DataRate.zero) }
    else s
  let s :=
    if estimated_throughput.bps < (s.link_capacity.lowerBound fm).bps then
      { s with link_capacity := s.link_capacity.reset }
    else s
  let s := { s with
    bitrate_is_initialized := true
    link_capacity := s.link_capacity.onOveruseDetected estimated_throughput
    rate_control_state := RateControlState.hold
    time_last_bitrate_change := at_time
    time_last_bitrate_decrease := at_time }
  { s with
    current_bitrate := s.clampBitrate (new_bitrate.getD s.current_bitrate) }

/-- The `RateControlState::Decrease` arm of the `match` in
`change_bitrate` (`aimd_rate_control.rs` lines 280-319), together with
the closing `clamp_bitrate` assignment.  The `Option` tracks the
potential panic of the `link_capacity.estimate()` unwrap. -/
def decreaseBranch (fm : FloatModel) (s : AimdRateControl)
    (estimated_throughput : DataRate) (at_time : Timestamp) : Option AimdRateControl :=
  let decreased_bitrate : DataRate := estimated_throughput.mulF64 s.beta
  let decreased_bitrate : DataRate :=
    if decreased_bitrate.bps > (DataRate.fromKilobitsPerSec 5).bps &&
        s.subtract_additional_backoff_term then
      decreased_bitrate.sub (DataRate.fromKilobitsPerSec 5)
    else decreased_bitrate
  let decreased? : Option DataRate :=
    if decreased_bitrate.bps > s.current_bitrate.bps then
      if s.link_capacity.hasEstimate then
        s.link_capacity.estimate?.map (fun e => e.mulF64 s.beta)
      else some decreased_bitrate
    else some decreased_bitrate
  decreased?.map (decreaseFinish fm s estimated_throughput at_time)

/-- The `latest_estimated_throughput` assignment at the top of
`change_bitrate` (`aimd_rate_control.rs` lines 227-229). -/
def latestUpdate (s : AimdRateControl) (input : RateControlInput) : AimdRateControl :=
  match input.estimated_throughput with
  | some thr => { s with latest_estimated_throughput := thr }
  | none => s

/-- `change_bitrate(input, at_time)` (`aimd_rate_control.rs` lines 222-322).
The only `Option` in the result tracks the potential panic of
`link_capacity.estimate()` in the `Decrease` branch; every other part of
the function is total. -/
def changeBitrate (fm : FloatModel) (s : AimdRateControl) (input : RateControlInput)
    (at_time : Timestamp) : Option AimdRateControl :=
  let estimated_throughput : DataRate :=
    input.estimated_throughput.getD s.latest_estimated_throughput
  let s := latestUpdate s input
  if !s.bitrate_is_initialized && input.bw_state ≠ BandwidthUsage.overusing then
    some s
  else
    let s := s.changeState input at_time
    match s.rate_control_state with
    | RateControlState.hold => some (holdBranch s)
    | RateControlState.increase => some (increaseBranch fm s estimated_throughput at_time)
    | RateControlState.decrease => decreaseBranch fm s estimated_throughput at_time


/-- The initialization block at the top of `update` (`aimd_rate_control.rs`
lines 153-166): stamp `time_first_throughput_estimate` on the first input
carrying a throughput estimate; once more than 5 s have passed since the
stamp, adopt the carried throughput as `current_bitrate` and mark
initialized. -/
def initStep (s : AimdRateControl) (input : RateControlInput) (at_time : Timestamp) :
    AimdRateControl :=
  if !s.bitrate_is_initialized then
    if s.time_first_throughput_estimate.isInfinite then
      if input.estimated_throughput.isSome then
        { s with time_first_throughput_estimate := at_time }
      else s
    else if (at_time.sub s.time_first_throughput_estimate).us >
        (TimeDelta.fromSeconds 5).us then
      match input.estimated_throughput with
      | some estimated_throughput =>
          { s with
            current_bitrate := estimated_throughput
            bitrate_is_initialized := true }
      | none => s
    else s
  else s

/-- `update(input, at_time)`, with the panic of the guarded
`link_capacity.estimate()` call tracked as `none`. -/
def update? (fm : FloatModel) (s : AimdRateControl) (input : RateControlInput)
    (at_time : Timestamp) : Option AimdRateControl :=
  changeBitrate fm (initStep s input at_time) input at_time

/-- Total version of `update`; the embedding proves the default branch is
never taken. -/
def update (fm : FloatModel) (s : AimdRateControl) (input : RateControlInput)
    (at_time : Timestamp) : AimdRateControl :=
  (update? fm s input at_time).getD s

/-- The controller state at the point where `change_bitrate` consults the
state machine: the initialization block has run and
`latest_estimated_throughput` has been refreshed. -/
def midState (s : AimdRateControl) (input : RateControlInput) (at_time : Timestamp) :
    AimdRateControl :=
  latestUpdate (initStep s input at_time) input

/-- `update(input, at_time)` reaches the `Decrease` arm of the state-machine
`match`: the pre-initialization early return is not taken, and
`change_state` leaves the controller in `Decrease`. -/
def entersDecrease (s : AimdRateControl) (input : RateControlInput) (at_time : Timestamp) :
    Prop :=
  ¬((midState s input at_time).bitrate_is_initialized = false ∧
      input.bw_state ≠ BandwidthUsage.overusing) ∧
  ((midState s input at_time).changeState input at_time).rate_control_state =
    RateControlState.decrease

end AimdRateControl

/-- A public call on an `AimdRateControl` instance. -/
inductive AimdOp where
  | update (input : RateControlInput) (at_time : Timestamp)
  | setEstimate (bitrate : DataRate) (at_time : Timestamp)
  | setStartBitrate (start_bitrate : DataRate)
  | setMinBitrate (min_bitrate : DataRate)
  | setRtt (rtt : TimeDelta)
  | setInAlr (in_alr : Bool)
  | setNetworkStateEstimate (estimate : Option NetworkStateEstimate)

namespace AimdOp

/-- Apply one public call to the controller state. -/
def apply (fm : FloatModel) (s : AimdRateControl) : AimdOp → AimdRateControl
  | update input at_time => s.update fm input at_time
  | setEstimate bitrate at_time => s.setEstimate bitrate at_time
  | setStartBitrate r => s.setStartBitrate r
  | setMinBitrate r => s.setMinBitrate r
  | setRtt rtt => s.setRtt rtt
  | setInAlr b => s.setInAlr b
  | setNetworkStateEstimate e => s.setNetworkStateEstimate e

/-- The two public calls that overwrite `current_bitrate` or the floor
without passing through `clamp_bitrate`. -/
def setsBitrateDirectly : AimdOp → Bool
  | setStartBitrate _ => true
  | setMinBitrate _ => true
  | _ => false

end AimdOp

/-- The controller after a sequence of public calls. -/
def AimdRateControl.run (fm : FloatModel) (s : AimdRateControl) (ops : List AimdOp) :
    AimdRateControl :=
  ops.foldl (AimdOp.apply fm) s

/-! ### `inter_arrival_delta.rs` -/

/-- The Rust cast `usize as i32`: keep the low 32 bits, signed. -/
def toI32 (n : Nat) : Int :=
  let low : Nat := n % 4294967296
  if low < 2147483648 then (low : Int) else (low : Int) - 4294967296

/-- Wrapping `usize` subtraction (release-profile semantics). -/
def usizeSub (a b : Nat) : Nat :=
  (a + 18446744073709551616 - b % 18446744073709551616) % 18446744073709551616

/-- `SendTimeGroup`. -/
structure SendTimeGroup where
  size : Nat
  first_send_time : Timestamp
  send_time : Timestamp
  first_arrival : Timestamp
  complete_time : Timestamp
  last_system_time : Timestamp
deriving DecidableEq, Repr

namespace SendTimeGroup

/-- `SendTimeGroup::new()`. -/
def new : SendTimeGroup where
  size := 0
  first_send_time := Timestamp.minusInfinity
  send_time := Timestamp.minusInfinity
  first_arrival := Timestamp.minusInfinity
  complete_time := Timestamp.minusInfinity
  last_system_time := Timestamp.minusInfinity

/-- `is_first_packet()`: the group is fresh iff `complete_time` is infinite. -/
def isFirstPacket (g : SendTimeGroup) : Bool := g.complete_time.isInfinite

end SendTimeGroup

/-- `InterArrivalDelta`. -/
structure InterArrivalDelta where
  send_time_group_length : TimeDelta
  current_timestamp_group : SendTimeGroup
  prev_timestamp_group : SendTimeGroup
  num_consecutive_reordered_packets : Int
deriving DecidableEq, Repr

namespace InterArrivalDelta

/-- `InterArrivalDelta::new(send_time_group_length)`. -/
def new (send_time_group_length : TimeDelta) : InterArrivalDelta where
  send_time_group_length := send_time_group_length
  current_timestamp_group := SendTimeGroup.new
  prev_timestamp_group := SendTimeGroup.new
  num_consecutive_reordered_packets := 0

/-- `reset()`. -/
def reset (ia : InterArrivalDelta) : InterArrivalDelta :=
  { ia with
    num_consecutive_reordered_packets := 0
    current_timestamp_group := SendTimeGroup.new
    prev_timestamp_group := SendTimeGroup.new }

/-- `belongs_to_burst(arrival_time, send_time)`. -/
def belongsToBurst (ia : InterArrivalDelta) (arrival_time send_time : Timestamp) : Bool :=
  let arrival_time_delta := arrival_time.sub ia.current_timestamp_group.complete_time
  let send_time_delta := send_time.sub ia.current_timestamp_group.send_time
  if send_time_delta.us = 0 then true
  else
    let propagation_delta := arrival_time_delta.sub send_time_delta
    propagation_delta.us < 0 && arrival_time_delta.us ≤ 5000 &&
      (arrival_time.sub ia.current_timestamp_group.first_arrival).us < 100000

/-- `new_timestamp_group(arrival_time, send_time)`. -/
def newTimestampGroup (ia : InterArrivalDelta) (arrival_time send_time : Timestamp) : Bool :=
  if ia.current_timestamp_group.isFirstPacket || ia.belongsToBurst arrival_time send_time then
    false
  else
    (send_time.sub ia.current_timestamp_group.first_send_time).us >
      ia.send_time_group_length.us

/-- Result of `compute_deltas`: the returned flag, the final state, and the
emitted `(send_time_delta, arrival_time_delta, packet_size_delta)` tuple
(the source writes these through `&mut` out-parameters; `deltas` is `some`
exactly when the function returns `true`). -/
structure ComputeDeltasResult where
  calculated : Bool
  state : InterArrivalDelta
  deltas : Option (TimeDelta × TimeDelta × Int)
deriving DecidableEq, Repr

/-- The tail of `compute_deltas`: accumulate the frame size and stamp
`complete_time` / `last_system_time` on the current group. -/
def accumulate (ia : InterArrivalDelta) (arrival_time system_time : Timestamp)
    (packet_size : Nat) : InterArrivalDelta :=
  { ia with
    current_timestamp_group := { ia.current_timestamp_group with
      size := (ia.current_timestamp_group.size + packet_size) % 18446744073709551616
      complete_time := arrival_time
      last_system_time := system_time } }

/-- `compute_deltas(send_time, arrival_time, system_time, packet_size, ..)`
(`inter_arrival_delta.rs` lines 41-114). -/
def computeDeltas (ia : InterArrivalDelta) (send_time arrival_time system_time : Timestamp)
    (packet_size : Nat) : ComputeDeltasResult :=
  if ia.current_timestamp_group.isFirstPacket then
    let ia := { ia with current_timestamp_group := { ia.current_timestamp_group with
      send_time := send_time
      first_send_time := send_time
      first_arrival := arrival_time } }
    ⟨false, accumulate ia arrival_time system_time packet_size, none⟩
  else if ia.current_timestamp_group.first_send_time.us > send_time.us then
    -- Reordered packet: return with no state change at all.
    ⟨false, ia, none⟩
  else if ia.newTimestampGroup arrival_time send_time then
    -- First packet of a later send burst; the previous sample may be ready.
    let rollover : InterArrivalDelta → InterArrivalDelta := fun ia =>
      { ia with
        prev_timestamp_group := ia.current_timestamp_group
        current_timestamp_group := { ia.current_timestamp_group with
          first_send_time := send_time
          send_time := send_time
          first_arrival := arrival_time
          size := 0 } }
    if ia.prev_timestamp_group.complete_time.isFinite then
      let send_time_delta :=
        ia.current_timestamp_group.send_time.sub ia.prev_timestamp_group.send_time
      let arrival_time_delta :=
        ia.current_timestamp_group.complete_time.sub ia.prev_timestamp_group.complete_time
      let system_time_delta :=
        ia.current_timestamp_group.last_system_time.sub ia.prev_timestamp_group.last_system_time
      if (arrival_time_delta.sub system_time_delta).us ≥ 3000000 then
        -- Arrival-time clock offset changed: warn and reset.
        ⟨false, ia.reset, none⟩
      else if arrival_time_delta.us < 0 then
        let ia := { ia with
          num_consecutive_reordered_packets := ia.num_consecutive_reordered_packets + 1 }
        if ia.num_consecutive_reordered_packets ≥ 3 then
          ⟨false, ia.reset, none⟩
        else
          ⟨false, ia, none⟩
      else
        let ia := { ia with num_consecutive_reordered_packets := 0 }
        let packet_size_delta := toI32
          (usizeSub ia.current_timestamp_group.size ia.prev_timestamp_group.size)
        ⟨true, accumulate (rollover ia) arrival_time system_time packet_size,
          some (send_time_delta, arrival_time_delta, packet_size_delta)⟩
    else
      ⟨false, accumulate (rollover ia) arrival_time system_time packet_size, none⟩
  else
    let ia := { ia with current_timestamp_group := { ia.current_timestamp_group with
      send_time := ⟨max ia.current_timestamp_group.send_time.us send_time.us⟩ } }
    ⟨false, accumulate ia arrival_time system_time packet_size, none⟩

end InterArrivalDelta

/-! ### `trendline_estimator.rs`

The optional `dyn NetworkStatePredictor` is an external collaborator: when
attached it only post-processes the computed `hypothesis` into
`hypothesis_predicted` and never feeds back into the trendline state.  We
embed the estimator as constructed with `None` (the default), for which
`state()` returns the `hypothesis` field. -/

/-- `PacketTiming` (all fields are `f64` in the source). -/
structure PacketTiming where
  arrival_time_ms : Frac
  smoothed_delay_ms : Frac
  raw_delay_ms : Frac
deriving DecidableEq, Repr

/-- `TrendlineEstimatorSettings` (`u32` fields embedded as `Nat`). -/
structure TrendlineEstimatorSettings where
  enable_sort : Bool
  enable_cap : Bool
  beginning_packets : Nat
  end_packets : Nat
  cap_uncertainty : Frac
  window_size : Nat
deriving DecidableEq, Repr

/-- `TrendlineEstimatorSettings::default()`. -/
def TrendlineEstimatorSettings.default : TrendlineEstimatorSettings where
  enable_sort := false
  enable_cap := false
  beginning_packets := 7
  end_packets := 7
  cap_uncertainty := ⟨0, 1⟩
  window_size := 20

/-- The state of `TrendlineEstimator` (without the external predictor). -/
structure TrendlineEstimator where
  settings : TrendlineEstimatorSettings
  smoothing_coef : Frac
  threshold_gain : Frac
  num_of_deltas : Int
  first_arrival_time_ms : Int
  accumulated_delay : Frac
  smoothed_delay : Frac
  delay_hist : List PacketTiming
  k_up : Frac
  k_down : Frac
  overusing_time_threshold : Frac
  threshold : Frac
  -- Initialized to `f64::NAN` in the source and never read afterwards;
  -- the fraction model seeds it with 0.
  prev_modified_trend : Frac
  last_update_ms : Int
  prev_trend : Frac
  time_over_using : Frac
  overuse_counter : Int
  hypothesis : BandwidthUsage
deriving DecidableEq

namespace TrendlineEstimator

/-- `TrendlineEstimator::new(settings, None)`. -/
def new (settings : TrendlineEstimatorSettings) : TrendlineEstimator where
  settings := settings
  smoothing_coef := ⟨9, 10⟩
  threshold_gain := ⟨4, 1⟩
  num_of_deltas := 0
  first_arrival_time_ms := -1
  accumulated_delay := ⟨0, 1⟩
  smoothed_delay := ⟨0, 1⟩
  delay_hist := []
  k_up := ⟨87, 10000⟩
  k_down := ⟨39, 1000⟩
  overusing_time_threshold := ⟨10, 1⟩
  threshold := ⟨125, 10⟩
  prev_modified_trend := ⟨0, 1⟩
  last_update_ms := -1
  prev_trend := ⟨0, 1⟩
  time_over_using := ⟨-1, 1⟩
  overuse_counter := 0
  hypothesis := BandwidthUsage.normal

/-- `state()` for an estimator constructed without a predictor. -/
def state (e : TrendlineEstimator) : BandwidthUsage := e.hypothesis

end TrendlineEstimator

/-- `linear_fit_slope(packets)`: least-squares slope of
`(arrival_time_ms, smoothed_delay_ms)`, `none` when the denominator is 0. -/
def linearFitSlope (packets : List PacketTiming) : Option Frac :=
  let sum_x : Frac := packets.foldl (fun acc p => acc.add p.arrival_time_ms) (Frac.ofInt 0)
  let sum_y : Frac := packets.foldl (fun acc p => acc.add p.smoothed_delay_ms) (Frac.ofInt 0)
  let x_avg : Frac := sum_x.div (Frac.ofInt packets.length)
  let y_avg : Frac := sum_y.div (Frac.ofInt packets.length)
  let numerator : Frac :=
    packets.foldl
      (fun acc p =>
        acc.add ((p.arrival_time_ms.sub x_avg).mul (p.smoothed_delay_ms.sub y_avg)))
      (Frac.ofInt 0)
  let denominator : Frac :=
    packets.foldl
      (fun acc p =>
        acc.add ((p.arrival_time_ms.sub x_avg).mul (p.arrival_time_ms.sub x_avg)))
      (Frac.ofInt 0)
  if denominator.beq (Frac.ofInt 0) then none else some (numerator.div denominator)

/-- Minimum of a packet segment by `raw_delay_ms` (first minimum wins),
seeded from the segment's head as the source's loops are. -/
def minByRawDelay (packets : List PacketTiming) : PacketTiming :=
  match packets with
  | [] => ⟨⟨0, 1⟩, ⟨0, 1⟩, ⟨0, 1⟩⟩
  | h :: t => t.foldl (fun a p => if p.raw_delay_ms.blt a.raw_delay_ms then p else a) h

/-- `compute_slope_cap(packets, settings)`.  The source indexes the deque
directly under debug assertions relating `beginning_packets`/`end_packets`
to the window size; the list model is total (out-of-range segments are
empty and yield the junk seed), which is only reachable for degenerate
settings. -/
def computeSlopeCap (packets : List PacketTiming) (settings : TrendlineEstimatorSettings) :
    Option Frac :=
  let early := minByRawDelay (packets.take settings.beginning_packets)
  let late := minByRawDelay (packets.drop (packets.length - settings.end_packets))
  if (late.arrival_time_ms.sub early.arrival_time_ms).blt (Frac.ofInt 1) then none
  else
    some (((late.raw_delay_ms.sub early.raw_delay_ms).div
      (late.arrival_time_ms.sub early.arrival_time_ms)).add settings.cap_uncertainty)

/-- One backward bubble pass over the reversed window: the freshly pushed
element `p` moves past every later-arrival element until the first
non-greater one (the `enable_sort` loop of `update_trendline`). -/
def bubbleRev (p : PacketTiming) : List PacketTiming → List PacketTiming
  | [] => [p]
  | x :: rest =>
      if p.arrival_time_ms.blt x.arrival_time_ms then x :: bubbleRev p rest
      else p :: x :: rest

/-- The `enable_sort` pass applied to the window after a push. -/
def bubbleLast (l : List PacketTiming) : List PacketTiming :=
  match l.reverse with
  | [] => []
  | p :: rl => (bubbleRev p rl).reverse

namespace TrendlineEstimator

/-- `update_threshold(modified_trend, now_ms)`
(`trendline_estimator.rs` lines 283-303). -/
def updateThreshold (e : TrendlineEstimator) (modified_trend : Frac) (now_ms : Int) :
    TrendlineEstimator :=
  let e :=
    if e.last_update_ms = -1 then { e with last_update_ms := now_ms } else e
  if (e.threshold.add (Frac.ofInt 15)).blt modified_trend.abs then
    { e with last_update_ms := now_ms }
  else
    let k := if modified_trend.abs.blt e.threshold then e.k_down else e.k_up
    let time_delta_ms : Int := min (now_ms - e.last_update_ms) 100
    let th := e.threshold.add
      ((k.mul (modified_trend.abs.sub e.threshold)).mul (Frac.ofInt time_delta_ms))
    { e with
      threshold := th.clamp (Frac.ofInt 6) (Frac.ofInt 600)
      last_update_ms := now_ms }

/-- `detect(trend, ts_delta, now_ms)` (`trendline_estimator.rs`
lines 242-281).  The source mutates `self` in place (stores
`prev_modified_trend`, updates the over-using timer, increments the
counter, then tests the updated values); here the updated timer and
counter are named `time_over` and `counter` and the final state of each
branch is written out, which is the same assignment sequence flattened. -/
def detect (e : TrendlineEstimator) (trend ts_delta : Frac) (now_ms : Int) :
    TrendlineEstimator :=
  if e.num_of_deltas < 2 then
    { e with hypothesis := BandwidthUsage.normal }
  else
    let modified_trend : Frac :=
      ((Frac.ofInt (min e.num_of_deltas 60)).mul trend).mul e.threshold_gain
    let e1 :=
      if e.threshold.blt modified_trend then
        let time_over : Frac :=
          if e.time_over_using.beq ⟨-1, 1⟩ then ts_delta.div (Frac.ofInt 2)
          else e.time_over_using.add ts_delta
        let counter : Int := e.overuse_counter + 1
        if e.overusing_time_threshold.blt time_over && counter > 1 then
          if e.prev_trend.ble trend then
            { e with
              prev_modified_trend := modified_trend
              time_over_using := ⟨0, 1⟩
              overuse_counter := 0
              hypothesis := BandwidthUsage.overusing }
          else
            { e with
              prev_modified_trend := modified_trend
              time_over_using := time_over
              overuse_counter := counter }
        else
          { e with
            prev_modified_trend := modified_trend
            time_over_using := time_over
            overuse_counter := counter }
      else if modified_trend.blt ((Frac.ofInt 0).sub e.threshold) then
        { e with
          prev_modified_trend := modified_trend
          time_over_using := ⟨-1, 1⟩
          overuse_counter := 0
          hypothesis := BandwidthUsage.underusing }
      else
        { e with
          prev_modified_trend := modified_trend
          time_over_using := ⟨-1, 1⟩
          overuse_counter := 0
          hypothesis := BandwidthUsage.normal }
    updateThreshold { e1 with prev_trend := trend } modified_trend now_ms

/-- The first half of `update_trendline` (`trendline_estimator.rs` lines
157-184): bump and saturate `num_of_deltas`, stamp the first arrival,
run the exponential backoff filter, and maintain the bounded window
(optional sort pass, then eviction). -/
def pushSample (e : TrendlineEstimator) (recv_delta_ms send_delta_ms : Frac)
    (arrival_time_ms : Int) : TrendlineEstimator :=
  let delta_ms := recv_delta_ms.sub send_delta_ms
  let num := min (e.num_of_deltas + 1) 1000
  let first := if e.first_arrival_time_ms = -1 then arrival_time_ms else e.first_arrival_time_ms
  let acc := e.accumulated_delay.add delta_ms
  let smoothed := (e.smoothing_coef.mul e.smoothed_delay).add
    (((Frac.ofInt 1).sub e.smoothing_coef).mul acc)
  let hist := e.delay_hist ++ [⟨Frac.ofInt (arrival_time_ms - first), smoothed, acc⟩]
  let hist := if e.settings.enable_sort then bubbleLast hist else hist
  let hist := if hist.length > e.settings.window_size then hist.drop 1 else hist
  { e with
    num_of_deltas := num
    first_arrival_time_ms := first
    accumulated_delay := acc
    smoothed_delay := smoothed
    delay_hist := hist }

/-- The second half of `update_trendline` (lines 185-203): when the window
is full, fit the regression line (retaining the previous trend on a zero
denominator) and optionally cap the slope. -/
def trendAfterPush (e : TrendlineEstimator) : Frac :=
  if e.delay_hist.length = e.settings.window_size then
    let t := (linearFitSlope e.delay_hist).getD e.prev_trend
    if e.settings.enable_cap then
      match computeSlopeCap e.delay_hist e.settings with
      | some cap => if (Frac.ofInt 0).ble t && cap.blt t then cap else t
      | none => t
    else t
  else e.prev_trend

/-- `update_trendline(recv_delta_ms, send_delta_ms, _, arrival_time_ms, _)`
(`trendline_estimator.rs` lines 149-206). -/
def updateTrendline (e : TrendlineEstimator) (recv_delta_ms send_delta_ms : Frac)
    (arrival_time_ms : Int) : TrendlineEstimator :=
  let e1 := pushSample e recv_delta_ms send_delta_ms arrival_time_ms
  e1.detect (trendAfterPush e1) send_delta_ms arrival_time_ms

/-- One sample fed to `update(..)`. -/
structure Sample where
  recv_delta_ms : Frac
  send_delta_ms : Frac
  send_time_ms : Int
  arrival_time_ms : Int
  packet_size : Nat
  calculated_deltas : Bool
deriving DecidableEq, Repr

/-- `update(recv_delta_ms, send_delta_ms, send_time_ms, arrival_time_ms,
packet_size, calculated_deltas)` for the predictor-less estimator. -/
def update (e : TrendlineEstimator) (u : Sample) : TrendlineEstimator :=
  if u.calculated_deltas then
    e.updateTrendline u.recv_delta_ms u.send_delta_ms u.arrival_time_ms
  else e

/-- The estimator after a trace of `update` calls from `new settings`. -/
def run (settings : TrendlineEstimatorSettings) (trace : List Sample) : TrendlineEstimator :=
  trace.foldl update (new settings)

end TrendlineEstimator

/-- The gate the spec places on an `Overusing` transition of the trendline
detector, evaluated at the pre-update state `s` and the incoming sample
`u`: the update ran the trendline (`calculated_deltas`), the updated
`num_of_deltas` is at least 2, `modified_trend = min(num_of_deltas, 60) ·
trend · 4.0` exceeds the threshold, the accumulated over-using time
exceeds 10 ms, the incremented overuse counter exceeds 1, the trend is at
least the previous trend, and the counter and timer are reset by the
update. -/
def TrendlineEstimator.overuseStepConditions (s : TrendlineEstimator)
    (u : TrendlineEstimator.Sample) : Prop :=
  u.calculated_deltas = true ∧
  2 ≤ (TrendlineEstimator.pushSample s u.recv_delta_ms u.send_delta_ms
    u.arrival_time_ms).num_of_deltas ∧
  s.threshold.blt
    (((Frac.ofInt (min (TrendlineEstimator.pushSample s u.recv_delta_ms u.send_delta_ms
        u.arrival_time_ms).num_of_deltas 60)).mul
      (TrendlineEstimator.trendAfterPush (TrendlineEstimator.pushSample s u.recv_delta_ms
        u.send_delta_ms u.arrival_time_ms))).mul ⟨4, 1⟩) = true ∧
  (⟨10, 1⟩ : Frac).blt
    (if s.time_over_using.beq ⟨-1, 1⟩ then u.send_delta_ms.div (Frac.ofInt 2)
     else s.time_over_using.add u.send_delta_ms) = true ∧
  0 < s.overuse_counter ∧
  s.prev_trend.ble
    (TrendlineEstimator.trendAfterPush (TrendlineEstimator.pushSample s u.recv_delta_ms
      u.send_delta_ms u.arrival_time_ms)) = true ∧
  (s.update u).time_over_using = ⟨0, 1⟩ ∧
  (s.update u).overuse_counter = 0

/-- The spec's formula for `DataRate × TimeDelta → DataSize`
(§3 of the specification): the exact integer
`(bps·µs + 4·10⁶) / (8·10⁶)` with truncating integer division, computed
without any 64-bit wrap-around. -/
def specRateTimesDeltaBytes (r : DataRate) (t : TimeDelta) : Int :=
  Int.tdiv (r.bps * t.us + 4000000) 8000000

/-! ## Helper lemmas -/

theorem clampBitrate_floor (s : AimdRateControl) (x : DataRate) :
    s.min_configured_bitrate.bps ≤ (s.clampBitrate x).bps := by
  unfold AimdRateControl.clampBitrate
  exact le_max_right _ _

theorem holdBranch_floor (s : AimdRateControl) :
    (AimdRateControl.holdBranch s).min_configured_bitrate = s.min_configured_bitrate ∧
    s.min_configured_bitrate.bps ≤ (AimdRateControl.holdBranch s).current_bitrate.bps :=
  ⟨rfl, clampBitrate_floor s s.current_bitrate⟩

theorem increaseBranch_floor (fm : FloatModel) (s : AimdRateControl)
    (est : DataRate) (t : Timestamp) :
    (AimdRateControl.increaseBranch fm s est t).min_configured_bitrate =
      s.min_configured_bitrate ∧
    s.min_configured_bitrate.bps ≤
      (AimdRateControl.increaseBranch fm s est t).current_bitrate.bps := by
  unfold AimdRateControl.increaseBranch
  split_ifs <;> exact ⟨rfl, clampBitrate_floor _ _⟩

theorem decreaseFinish_spec (fm : FloatModel) (s : AimdRateControl)
    (est : DataRate) (t : Timestamp) (d : DataRate) :
    (AimdRateControl.decreaseFinish fm s est t d).min_configured_bitrate =
        s.min_configured_bitrate ∧
    s.min_configured_bitrate.bps ≤
        (AimdRateControl.decreaseFinish fm s est t d).current_bitrate.bps ∧
    (AimdRateControl.decreaseFinish fm s est t d).rate_control_state =
        RateControlState.hold ∧
    (AimdRateControl.decreaseFinish fm s est t d).time_last_bitrate_change = t ∧
    (AimdRateControl.decreaseFinish fm s est t d).time_last_bitrate_decrease = t := by
  simp only [AimdRateControl.decreaseFinish]
  split_ifs <;> simp <;> exact clampBitrate_floor _ _

theorem decreaseBranch_spec (fm : FloatModel) (s : AimdRateControl)
    (est : DataRate) (t : Timestamp) :
    ∃ s', AimdRateControl.decreaseBranch fm s est t = some s' ∧
      s'.min_configured_bitrate = s.min_configured_bitrate ∧
      s.min_configured_bitrate.bps ≤ s'.current_bitrate.bps ∧
      s'.rate_control_state = RateControlState.hold ∧
      s'.time_last_bitrate_change = t ∧
      s'.time_last_bitrate_decrease = t := by
  have key : ∀ d : DataRate, ∃ d',
      (if d.bps > s.current_bitrate.bps then
        if s.link_capacity.hasEstimate then
          s.link_capacity.estimate?.map (fun e => e.mulF64 s.beta)
        else some d
      else some d) = some d' := by
    intro d
    split_ifs with hA hB
    · rcases h : s.link_capacity.estimate_kbps with _ | e
      · simp [LinkCapacityEstimator.hasEstimate, h] at hB
      · rw [LinkCapacityEstimator.estimate?, h]
        exact ⟨_, rfl⟩
    · exact ⟨_, rfl⟩
    · exact ⟨_, rfl⟩
  simp only [AimdRateControl.decreaseBranch]
  obtain ⟨d', hd⟩ := key _
  rw [hd, Option.map_some']
  exact ⟨_, rfl, decreaseFinish_spec fm s est t _⟩

theorem changeState_fields (s : AimdRateControl) (input : RateControlInput) (t : Timestamp) :
    (s.changeState input t).min_configured_bitrate = s.min_configured_bitrate ∧
    (s.changeState input t).current_bitrate = s.current_bitrate ∧
    (s.changeState input t).bitrate_is_initialized = s.bitrate_is_initialized := by
  unfold AimdRateControl.changeState
  cases input.bw_state <;> split_ifs <;> exact ⟨rfl, rfl, rfl⟩

theorem changeBitrate_branches (fm : FloatModel) (m : AimdRateControl)
    (input : RateControlInput) (t : Timestamp) (est : DataRate)
    (r : Option AimdRateControl)
    (hr : r = (if !m.bitrate_is_initialized && input.bw_state ≠ BandwidthUsage.overusing then
        some m
      else
        match (m.changeState input t).rate_control_state with
        | RateControlState.hold => some (AimdRateControl.holdBranch (m.changeState input t))
        | RateControlState.increase =>
            some (AimdRateControl.increaseBranch fm (m.changeState input t) est t)
        | RateControlState.decrease =>
            AimdRateControl.decreaseBranch fm (m.changeState input t) est t)) :
    ∃ s', r = some s' ∧
      s'.min_configured_bitrate = m.min_configured_bitrate ∧
      ((m.bitrate_is_initialized = false ∧ s'.current_bitrate = m.current_bitrate) ∨
        m.min_configured_bitrate.bps ≤ s'.current_bitrate.bps) := by
  obtain ⟨hmin, hcur, -⟩ := changeState_fields m input t
  subst hr
  split_ifs with h
  · refine ⟨m, rfl, rfl, Or.inl ⟨?_, rfl⟩⟩
    rcases Bool.and_eq_true .. |>.mp h with ⟨h1, -⟩
    simpa using h1
  · rcases h2 : (m.changeState input t).rate_control_state with _ | _ | _
    · simp only [h2]
      refine ⟨_, rfl, hmin, Or.inr ?_⟩
      have := clampBitrate_floor (m.changeState input t) (m.changeState input t).current_bitrate
      rwa [hmin] at this
    · simp only [h2]
      obtain ⟨h3, h4⟩ := increaseBranch_floor fm (m.changeState input t) est t
      refine ⟨_, rfl, h3.trans hmin, Or.inr ?_⟩
      rwa [hmin] at h4
    · simp only [h2]
      obtain ⟨s', heq, h3, h4, -, -, -⟩ := decreaseBranch_spec fm (m.changeState input t) est t
      refine ⟨s', heq, h3.trans hmin, Or.inr ?_⟩
      rwa [hmin] at h4

theorem latestUpdate_fields (s : AimdRateControl) (input : RateControlInput) :
    (AimdRateControl.latestUpdate s input).min_configured_bitrate = s.min_configured_bitrate ∧
    (AimdRateControl.latestUpdate s input).current_bitrate = s.current_bitrate ∧
    (AimdRateControl.latestUpdate s input).bitrate_is_initialized = s.bitrate_is_initialized := by
  unfold AimdRateControl.latestUpdate
  rcases input.estimated_throughput with _ | thr <;> exact ⟨rfl, rfl, rfl⟩

theorem changeBitrate_spec (fm : FloatModel) (s : AimdRateControl)
    (input : RateControlInput) (t : Timestamp) :
    ∃ s', AimdRateControl.changeBitrate fm s input t = some s' ∧
      s'.min_configured_bitrate = s.min_configured_bitrate ∧
      ((s.bitrate_is_initialized = false ∧ s'.current_bitrate = s.current_bitrate) ∨
        s.min_configured_bitrate.bps ≤ s'.current_bitrate.bps) := by
  obtain ⟨hmin0, hcur0, hinit0⟩ := latestUpdate_fields s input
  obtain ⟨s', heq, hmin, hcur⟩ :=
    changeBitrate_branches fm (AimdRateControl.latestUpdate s input) input t
      (input.estimated_throughput.getD s.latest_estimated_throughput)
      (AimdRateControl.changeBitrate fm s input t) rfl
  refine ⟨s', heq, hmin.trans hmin0, ?_⟩
  rcases hcur with ⟨ha, hb⟩ | hfloor
  · exact Or.inl ⟨hinit0 ▸ ha, hb.trans hcur0⟩
  · exact Or.inr (hmin0 ▸ hfloor)

theorem initStep_fields (s : AimdRateControl) (input : RateControlInput) (t : Timestamp) :
    (AimdRateControl.initStep s input t).min_configured_bitrate = s.min_configured_bitrate ∧
    ((AimdRateControl.initStep s input t).bitrate_is_initialized = false →
      (AimdRateControl.initStep s input t).current_bitrate = s.current_bitrate) := by
  unfold AimdRateControl.initStep
  rcases input.estimated_throughput with _ | thr <;> split_ifs <;>
    exact ⟨rfl, fun h => by first | rfl | cases h⟩

theorem update_spec (fm : FloatModel) (s : AimdRateControl)
    (input : RateControlInput) (t : Timestamp) :
    ∃ s', AimdRateControl.update? fm s input t = some s' ∧
      AimdRateControl.update fm s input t = s' ∧
      s'.min_configured_bitrate = s.min_configured_bitrate ∧
      (s'.current_bitrate = s.current_bitrate ∨
        s.min_configured_bitrate.bps ≤ s'.current_bitrate.bps) := by
  obtain ⟨hmin0, hcur0⟩ := initStep_fields s input t
  obtain ⟨s', heq, hmin, hcur⟩ :=
    changeBitrate_spec fm (AimdRateControl.initStep s input t) input t
  refine ⟨s', heq, ?_, hmin.trans hmin0, ?_⟩
  · rw [AimdRateControl.update, AimdRateControl.update?, heq]
    rfl
  · rcases hcur with ⟨hinit, hsame⟩ | hfloor
    · exact Or.inl (hsame.trans (hcur0 hinit))
    · rw [hmin0] at hfloor
      exact Or.inr hfloor

theorem setEstimate_floor (s : AimdRateControl) (b : DataRate) (t : Timestamp) :
    (s.setEstimate b t).min_configured_bitrate = s.min_configured_bitrate ∧
    s.min_configured_bitrate.bps ≤ (s.setEstimate b t).current_bitrate.bps := by
  simp only [AimdRateControl.setEstimate]
  split_ifs <;> exact ⟨rfl, clampBitrate_floor _ _⟩

/-- The floor invariant `min_configured_bitrate ≤ current_bitrate` is
preserved by every public call except `set_start_bitrate` and
`set_min_bitrate`. -/
theorem apply_preserves_floor (fm : FloatModel) (op : AimdOp) (s : AimdRateControl)
    (hop : op.setsBitrateDirectly = false)
    (hs : s.min_configured_bitrate.bps ≤ s.current_bitrate.bps) :
    (op.apply fm s).min_configured_bitrate.bps ≤ (op.apply fm s).current_bitrate.bps := by
  cases op with
  | update input t =>
      obtain ⟨s', -, hup, hmin, hcur⟩ := update_spec fm s input t
      rw [AimdOp.apply, hup]
      rcases hcur with hsame | hfloor
      · rw [hmin, hsame]; exact hs
      · rw [hmin]; exact hfloor
  | setEstimate b t =>
      obtain ⟨hmin, hfloor⟩ := setEstimate_floor s b t
      rw [AimdOp.apply, hmin]
      exact hfloor
  | setStartBitrate r => cases hop
  | setMinBitrate r => cases hop
  | setRtt rtt => exact hs
  | setInAlr b => exact hs
  | setNetworkStateEstimate e => exact hs

theorem run_preserves_floor (fm : FloatModel) (ops : List AimdOp) (s : AimdRateControl)
    (hops : ∀ op ∈ ops, op.setsBitrateDirectly = false)
    (hs : s.min_configured_bitrate.bps ≤ s.current_bitrate.bps) :
    (s.run fm ops).min_configured_bitrate.bps ≤ (s.run fm ops).current_bitrate.bps := by
  induction ops generalizing s with
  | nil => exact hs
  | cons op rest ih =>
      exact ih _ (fun o ho => hops o (List.mem_cons_of_mem op ho))
        (apply_preserves_floor fm op s (hops op (List.mem_cons_self op rest)) hs)

/-- `update?` written out with `midState` naming the state at the point the
state machine is consulted (definitional unfolding of
`update? = change_bitrate ∘ initStep`). -/
theorem update?_unfold (fm : FloatModel) (s : AimdRateControl) (input : RateControlInput)
    (t : Timestamp) :
    AimdRateControl.update? fm s input t =
      (if !(AimdRateControl.midState s input t).bitrate_is_initialized &&
          input.bw_state ≠ BandwidthUsage.overusing then
        some (AimdRateControl.midState s input t)
      else
        match ((AimdRateControl.midState s input t).changeState input t).rate_control_state with
        | RateControlState.hold =>
            some (AimdRateControl.holdBranch
              ((AimdRateControl.midState s input t).changeState input t))
        | RateControlState.increase =>
            some (AimdRateControl.increaseBranch fm
              ((AimdRateControl.midState s input t).changeState input t)
              (input.estimated_throughput.getD
                (AimdRateControl.initStep s input t).latest_estimated_throughput) t)
        | RateControlState.decrease =>
            AimdRateControl.decreaseBranch fm
              ((AimdRateControl.midState s input t).changeState input t)
              (input.estimated_throughput.getD
                (AimdRateControl.initStep s input t).latest_estimated_throughput) t) :=
  rfl

theorem wrap64_id {x : Int} (h0 : i64Min ≤ x) (h1 : x ≤ i64Max) : wrap64 x = x := by
  unfold wrap64 i64Min i64Max at *
  omega

theorem frac_max_ofInt (a b : Int) :
    Frac.max (Frac.ofInt a) (Frac.ofInt b) = Frac.ofInt (max a b) := by
  unfold Frac.max Frac.blt Frac.ofInt
  rcases lt_or_ge a b with h | h
  · simp [h, max_eq_right h.le]
  · simp [not_lt.mpr h, max_eq_left h]

theorem nearMax_int (s : AimdRateControl) :
    ∃ R : Int, 4000 ≤ R ∧
      s.getNearMaxIncreaseRateBpsPerSecond = Frac.ofInt R :=
  ⟨max 4000 (AimdRateControl.nearMaxRawRateBps s), le_max_left 4000 _,
    frac_max_ofInt 4000 _⟩

theorem frac_div_ofInt {a b : Int} (hb : 0 < b) :
    (Frac.ofInt a).div (Frac.ofInt b) = ⟨a, b⟩ := by
  unfold Frac.div Frac.ofInt
  rw [if_neg (by omega : ¬(1 * b < 0))]
  simp

/-! ## Claims -/

/-- **C1**, counterexample.  The claim asserts
`min_configured_bitrate ≤ current_bitrate ≤ max_configured_bitrate` after
every public call on a default-configured controller; but `clamp_bitrate`
never enforces the upper bound, so a single `set_estimate(40 Mbps)` on a
fresh controller leaves `latest_estimate() = 40 Mbps`, strictly above
`max_configured_bitrate = 30 Mbps`. -/
theorem aimd_bitrate_range_counterexample :
    ((AimdRateControl.new AimdRateControlConfig.default false).run fm0
        [AimdOp.setEstimate ⟨40000000⟩ ⟨0⟩]).max_configured_bitrate.bps <
      ((AimdRateControl.new AimdRateControlConfig.default false).run fm0
        [AimdOp.setEstimate ⟨40000000⟩ ⟨0⟩]).latestEstimate.bps := by
  decide

/-- **C1** (amended): for every sequence of public calls avoiding
`set_start_bitrate` and `set_min_bitrate`, after each call
`min_configured_bitrate ≤ latest_estimate()` holds on a controller built
with the default configuration; no upper clamp against
`max_configured_bitrate` exists. -/
theorem aimd_bitrate_floor_invariant (fm : FloatModel) (send_side : Bool)
    (ops : List AimdOp) (hops : ∀ op ∈ ops, op.setsBitrateDirectly = false) :
    ((AimdRateControl.new AimdRateControlConfig.default send_side).run fm
        ops).min_configured_bitrate.bps ≤
      ((AimdRateControl.new AimdRateControlConfig.default send_side).run fm
        ops).latestEstimate.bps :=
  run_preserves_floor fm ops _ hops (by show (5000 : Int) ≤ wrap64 (1000 * 30000); decide)

/-- **C1**: witness for the amended invariant at a concrete call sequence. -/
theorem aimd_bitrate_floor_invariant_witness :
    (∀ op ∈ [AimdOp.setEstimate ⟨123000⟩ ⟨0⟩,
        AimdOp.update ⟨BandwidthUsage.normal, some ⟨123000⟩⟩ ⟨0⟩,
        AimdOp.update ⟨BandwidthUsage.overusing, some ⟨100000⟩⟩ ⟨100000⟩],
      AimdOp.setsBitrateDirectly op = false) ∧
    ((AimdRateControl.new AimdRateControlConfig.default false).run fm0
        [AimdOp.setEstimate ⟨123000⟩ ⟨0⟩,
         AimdOp.update ⟨BandwidthUsage.normal, some ⟨123000⟩⟩ ⟨0⟩,
         AimdOp.update ⟨BandwidthUsage.overusing, some ⟨100000⟩⟩ ⟨100000⟩]).min_configured_bitrate.bps ≤
      ((AimdRateControl.new AimdRateControlConfig.default false).run fm0
        [AimdOp.setEstimate ⟨123000⟩ ⟨0⟩,
         AimdOp.update ⟨BandwidthUsage.normal, some ⟨123000⟩⟩ ⟨0⟩,
         AimdOp.update ⟨BandwidthUsage.overusing, some ⟨100000⟩⟩ ⟨100000⟩]).latestEstimate.bps :=
  ⟨by decide, aimd_bitrate_floor_invariant fm0 false _ (by decide)⟩

/-- **C10**: `LinkCapacityEstimator::estimate()` unwraps the optional
estimate, so it succeeds exactly when `has_estimate()`; inside
`AimdRateControl` the only call site is guarded by `has_estimate()` in the
`Decrease` branch, so `update` never reaches the unwrap of an empty
estimate on any controller state: the panic-tracking `update?` always
returns a state. -/
theorem link_capacity_estimate_guarded :
    (∀ lc : LinkCapacityEstimator, lc.estimate?.isSome = lc.hasEstimate) ∧
    (∀ (fm : FloatModel) (s : AimdRateControl) (input : RateControlInput) (t : Timestamp),
      (AimdRateControl.update? fm s input t).isSome = true) := by
  constructor
  · intro lc
    rcases h : lc.estimate_kbps with _ | e <;>
      simp [LinkCapacityEstimator.estimate?, LinkCapacityEstimator.hasEstimate, h]
  · intro fm s input t
    obtain ⟨s', heq, -⟩ := update_spec fm s input t
    rw [heq]
    rfl

/-- **C5**: whenever `update(input, at_time)` reaches the `Decrease` arm of
the state machine, the returned controller has
`rate_control_state = Hold`, `time_last_bitrate_decrease = at_time` and
`time_last_bitrate_change = at_time`. -/
theorem aimd_decrease_forces_hold (fm : FloatModel) (s : AimdRateControl)
    (input : RateControlInput) (t : Timestamp)
    (h : AimdRateControl.entersDecrease s input t) :
    (AimdRateControl.update fm s input t).rate_control_state = RateControlState.hold ∧
    (AimdRateControl.update fm s input t).time_last_bitrate_decrease = t ∧
    (AimdRateControl.update fm s input t).time_last_bitrate_change = t := by
  obtain ⟨h1, h2⟩ := h
  have hcond : (!(AimdRateControl.midState s input t).bitrate_is_initialized &&
      decide (input.bw_state ≠ BandwidthUsage.overusing)) = false := by
    cases hbi : (AimdRateControl.midState s input t).bitrate_is_initialized
    · have hbw : ¬input.bw_state ≠ BandwidthUsage.overusing := fun hne => h1 ⟨hbi, hne⟩
      simp [hbw]
    · simp
  have hrun : AimdRateControl.update? fm s input t =
      AimdRateControl.decreaseBranch fm
        ((AimdRateControl.midState s input t).changeState input t)
        (input.estimated_throughput.getD
          (AimdRateControl.initStep s input t).latest_estimated_throughput) t := by
    rw [update?_unfold fm s input t]
    simp only [hcond, Bool.false_eq_true, if_false, h2]
  obtain ⟨s', heq, -, -, hstate, hchg, hdec⟩ :=
    decreaseBranch_spec fm ((AimdRateControl.midState s input t).changeState input t)
      (input.estimated_throughput.getD
        (AimdRateControl.initStep s input t).latest_estimated_throughput) t
  have hupd : AimdRateControl.update fm s input t = s' := by
    rw [AimdRateControl.update, hrun, heq]
    rfl
  rw [hupd]
  exact ⟨hstate, hdec, hchg⟩

/-- **C5**: witness — a fresh controller given `set_estimate(300 kbps)` and
then an `Overusing` update enters the `Decrease` arm, and the claim's
postconditions hold there. -/
theorem aimd_decrease_forces_hold_witness :
    AimdRateControl.entersDecrease
      ((AimdRateControl.new AimdRateControlConfig.default false).setEstimate ⟨300000⟩
        ⟨123456000⟩)
      ⟨BandwidthUsage.overusing, some ⟨280000⟩⟩ ⟨123457000⟩ ∧
    (AimdRateControl.update fm0
      ((AimdRateControl.new AimdRateControlConfig.default false).setEstimate ⟨300000⟩
        ⟨123456000⟩)
      ⟨BandwidthUsage.overusing, some ⟨280000⟩⟩ ⟨123457000⟩).rate_control_state =
        RateControlState.hold ∧
    (AimdRateControl.update fm0
      ((AimdRateControl.new AimdRateControlConfig.default false).setEstimate ⟨300000⟩
        ⟨123456000⟩)
      ⟨BandwidthUsage.overusing, some ⟨280000⟩⟩ ⟨123457000⟩).time_last_bitrate_decrease =
        ⟨123457000⟩ := by
  have h : AimdRateControl.entersDecrease
      ((AimdRateControl.new AimdRateControlConfig.default false).setEstimate ⟨300000⟩
        ⟨123456000⟩)
      ⟨BandwidthUsage.overusing, some ⟨280000⟩⟩ ⟨123457000⟩ := by
    constructor
    · decide
    · decide
  exact ⟨h, (aimd_decrease_forces_hold fm0 _ _ _ h).1,
    (aimd_decrease_forces_hold fm0 _ _ _ h).2.1⟩

/-- **C2**, counterexample.  The claim says that while
`bitrate_is_initialized` is false only an `Overusing` input may change
`current_bitrate`; but the initialization block adopts a carried
throughput estimate once more than 5 s have passed since the first
estimate was stamped, and the same (Normal-input) call then also runs the
`Increase` branch: starting from a fresh controller, a `Normal` update at
`t = 0` followed by a `Normal` update at `t = 6 s` (both carrying
123 kbps) changes `current_bitrate` from 30 Mbps to 124 kbps even though
`bitrate_is_initialized` was still false when the second call began. -/
theorem aimd_uninitialized_mutation_counterexample :
    ((AimdRateControl.new AimdRateControlConfig.default false).update fm0
        ⟨BandwidthUsage.normal, some ⟨123000⟩⟩ ⟨0⟩).bitrate_is_initialized = false ∧
    (((AimdRateControl.new AimdRateControlConfig.default false).update fm0
        ⟨BandwidthUsage.normal, some ⟨123000⟩⟩ ⟨0⟩).update fm0
        ⟨BandwidthUsage.normal, some ⟨123000⟩⟩ ⟨6000000⟩).current_bitrate ≠
      ((AimdRateControl.new AimdRateControlConfig.default false).update fm0
        ⟨BandwidthUsage.normal, some ⟨123000⟩⟩ ⟨0⟩).current_bitrate := by
  constructor
  · decide
  · decide

/-- **C2** (amended): while `bitrate_is_initialized` is false, a call to
`update` whose input is not `Overusing` leaves `current_bitrate` unchanged
*provided the initialization block does not adopt a throughput estimate on
that call* (i.e. `initStep` leaves the controller uninitialized); an input
that completes initialization may change `current_bitrate` even when it is
not `Overusing`. -/
theorem aimd_uninitialized_no_mutation (fm : FloatModel) (s : AimdRateControl)
    (input : RateControlInput) (t : Timestamp)
    (hinit : s.bitrate_is_initialized = false)
    (hbw : input.bw_state ≠ BandwidthUsage.overusing)
    (hadopt : (AimdRateControl.initStep s input t).bitrate_is_initialized = false) :
    (AimdRateControl.update fm s input t).current_bitrate = s.current_bitrate := by
  obtain ⟨-, hcur0⟩ := initStep_fields s input t
  obtain ⟨-, hc, hi⟩ := latestUpdate_fields (AimdRateControl.initStep s input t) input
  have hmidinit : (AimdRateControl.midState s input t).bitrate_is_initialized = false := by
    rw [AimdRateControl.midState, hi, hadopt]
  have hcond : (!(AimdRateControl.midState s input t).bitrate_is_initialized &&
      decide (input.bw_state ≠ BandwidthUsage.overusing)) = true := by
    simp [hmidinit, hbw]
  have hrun : AimdRateControl.update? fm s input t =
      some (AimdRateControl.midState s input t) := by
    rw [update?_unfold fm s input t, if_pos hcond]
  rw [AimdRateControl.update, hrun, Option.getD_some, AimdRateControl.midState, hc,
    hcur0 hadopt]

/-- **C2**: witness for the amended statement — a fresh controller fed a
`Normal` input with a throughput estimate at `t = 0` keeps
`current_bitrate = 30 Mbps`. -/
theorem aimd_uninitialized_no_mutation_witness :
    (AimdRateControl.new AimdRateControlConfig.default false).bitrate_is_initialized = false ∧
    (AimdRateControl.update fm0 (AimdRateControl.new AimdRateControlConfig.default false)
        ⟨BandwidthUsage.normal, some ⟨123000⟩⟩ ⟨0⟩).current_bitrate =
      (AimdRateControl.new AimdRateControlConfig.default false).current_bitrate :=
  ⟨by decide,
    aimd_uninitialized_no_mutation fm0 _ _ _ (by decide) (by decide) (by decide)⟩

end Gcc

namespace Gcc

/-- **C3**, counterexample.  The claim asserts
`get_expected_bandwidth_period() = 3 s` *iff* no decrease has been
recorded; but with `current_bitrate = 30 kbps` (so the near-max increase
rate is the 4000 bps floor) and a recorded `last_decrease = 12 kbps`, the
truncated quotient is exactly 3, inside the clamp range, so the call
returns 3 s with a recorded decrease. -/
theorem bandwidth_period_iff_counterexample :
    ({ AimdRateControl.new AimdRateControlConfig.default false with
        current_bitrate := ⟨30000⟩
        last_decrease := some ⟨12000⟩ } :
      AimdRateControl).getExpectedBandwidthPeriod = TimeDelta.fromSeconds 3 ∧
    ({ AimdRateControl.new AimdRateControlConfig.default false with
        current_bitrate := ⟨30000⟩
        last_decrease := some ⟨12000⟩ } :
      AimdRateControl).last_decrease ≠ none := by
  constructor
  · decide
  · decide

/-- **C3** (amended): for every controller state with a nonzero
`current_bitrate` and a sane RTT (so the internal assertion and the `i64`
division of `get_near_max_increase_rate_bps_per_second` are defined) and a
`last_decrease` in `[0, 10^15]` bps:
`get_expected_bandwidth_period()` returns exactly 3 s when `last_decrease`
is unrecorded, and otherwise returns the clamp to `[2 s, 50 s]` of the
integer-truncated quotient `last_decrease.bps / near_max_rate` in seconds,
a value that always lies in `[2 s, 50 s]`; the result equals 3 s *if* no
decrease has been recorded, but the converse direction of the claimed
"iff" is false (see the counterexample). -/
theorem bandwidth_period_spec (s : AimdRateControl)
    (hcur : s.current_bitrate.bps ≠ 0)
    (hrtt0 : 0 ≤ s.rtt.us) (hrtt1 : s.rtt.us ≤ 1000000000000000)
    (hd : ∀ d : DataRate, s.last_decrease = some d →
      0 ≤ d.bps ∧ d.bps ≤ 1000000000000000) :
    (s.last_decrease = none →
      s.getExpectedBandwidthPeriod = TimeDelta.fromSeconds 3) ∧
    (∀ d : DataRate, s.last_decrease = some d →
      s.getExpectedBandwidthPeriod = TimeDelta.fromSeconds
        (max 2 (min 50
          ((Frac.ofInt d.bps).div s.getNearMaxIncreaseRateBpsPerSecond).trunc)) ∧
      2000000 ≤ s.getExpectedBandwidthPeriod.us ∧
      s.getExpectedBandwidthPeriod.us ≤ 50000000) := by
  obtain ⟨R, hR4, hRe⟩ := nearMax_int s
  constructor
  · intro hnone
    simp only [AimdRateControl.getExpectedBandwidthPeriod, hnone]
  · intro d hsome
    obtain ⟨hd0, hd1⟩ := hd d hsome
    have hRpos : (0 : Int) < R := by omega
    have hdiv : (Frac.ofInt d.bps).div s.getNearMaxIncreaseRateBpsPerSecond =
        ⟨d.bps, R⟩ := by
      rw [hRe]; exact frac_div_ofInt hRpos
    have htE : Int.tdiv d.bps R = d.bps / R := Int.tdiv_eq_ediv hd0 hRpos.le
    have ht0 : 0 ≤ Int.tdiv d.bps R := Int.tdiv_nonneg hd0 hRpos.le
    have hmul : R * (d.bps / R) + d.bps % R = d.bps := Int.ediv_add_emod _ _
    have hmod : 0 ≤ d.bps % R := Int.emod_nonneg _ (by omega)
    have hRt : R * Int.tdiv d.bps R ≤ d.bps := by rw [htE]; omega
    have h4t : 4000 * Int.tdiv d.bps R ≤ R * Int.tdiv d.bps R :=
      mul_le_mul_of_nonneg_right hR4 ht0
    have ht1 : Int.tdiv d.bps R ≤ 250000000000 := by omega
    have htoI : toI64 (⟨d.bps, R⟩ : Frac) = Int.tdiv d.bps R := by
      show max i64Min (min i64Max (Int.tdiv d.bps R)) = Int.tdiv d.bps R
      unfold i64Min i64Max
      omega
    have key : s.getExpectedBandwidthPeriod =
        ⟨max 2000000 (min 50000000 (1000000 * Int.tdiv d.bps R))⟩ := by
      simp only [AimdRateControl.getExpectedBandwidthPeriod, hsome]
      rw [hdiv, htoI]
      show (⟨max 2000000 (min 50000000 (wrap64 (1000000 * Int.tdiv d.bps R)))⟩ :
        TimeDelta) = _
      rw [wrap64_id (by unfold i64Min; omega) (by unfold i64Max; omega)]
    refine ⟨?_, ?_, ?_⟩
    · rw [key, hdiv]
      show _ = (⟨wrap64 (1000000 * max 2 (min 50 (Int.tdiv d.bps R)))⟩ : TimeDelta)
      rw [wrap64_id (by unfold i64Min; omega) (by unfold i64Max; omega)]
      exact congrArg TimeDelta.mk (by omega)
    · rw [key]
      exact le_max_left _ _
    · rw [key]
      exact max_le (by norm_num) (min_le_left _ _)

/-- **C3**: witness for the amended statement at the counterexample state:
the recorded-decrease formula evaluates to exactly 3 s and lies inside
`[2 s, 50 s]`. -/
theorem bandwidth_period_spec_witness :
    ((30000 : Int) ≠ 0 ∧ (0 : Int) ≤ 200000 ∧ (200000 : Int) ≤ 1000000000000000) ∧
    (({ AimdRateControl.new AimdRateControlConfig.default false with
        current_bitrate := ⟨30000⟩
        last_decrease := some ⟨12000⟩ } :
      AimdRateControl).getExpectedBandwidthPeriod = TimeDelta.fromSeconds
        (max 2 (min 50
          ((Frac.ofInt (12000 : Int)).div
            ({ AimdRateControl.new AimdRateControlConfig.default false with
                current_bitrate := ⟨30000⟩
                last_decrease := some ⟨12000⟩ } :
              AimdRateControl).getNearMaxIncreaseRateBpsPerSecond).trunc)) ∧
      2000000 ≤ ({ AimdRateControl.new AimdRateControlConfig.default false with
          current_bitrate := ⟨30000⟩
          last_decrease := some ⟨12000⟩ } :
        AimdRateControl).getExpectedBandwidthPeriod.us ∧
      ({ AimdRateControl.new AimdRateControlConfig.default false with
          current_bitrate := ⟨30000⟩
          last_decrease := some ⟨12000⟩ } :
        AimdRateControl).getExpectedBandwidthPeriod.us ≤ 50000000) :=
  ⟨⟨by decide, by decide, by decide⟩,
    (bandwidth_period_spec _ (by decide) (by decide) (by decide)
      (by intro d hd; cases hd; exact ⟨by decide, by decide⟩)).2 ⟨12000⟩ rfl⟩

end Gcc

namespace Gcc

/-- **C8**, counterexample.  The claim quantifies over every finite
`DataRate` and `TimeDelta`, but the source computes `bps * µs` in `i64`,
which wraps: at `r.bps = t.us = 2^32` the wrapped product is `0`, giving
`0` bytes instead of the exact `(2^64 + 4·10⁶) / (8·10⁶)`. -/
theorem rate_mul_delta_counterexample :
    (DataRate.isFinite ⟨4294967296⟩ = true) ∧
    (TimeDelta.isFinite ⟨4294967296⟩ = true) ∧
    (DataRate.mulDelta ⟨4294967296⟩ ⟨4294967296⟩).bytes ≠
      specRateTimesDeltaBytes ⟨4294967296⟩ ⟨4294967296⟩ := by
  refine ⟨by decide, by decide, by decide⟩

/-- **C8** (amended): for every finite `DataRate` `r` and finite
`TimeDelta` `t` such that `r.bps·t.us` and `r.bps·t.us + 4·10⁶` lie within
the `i64` range (no wrap-around), the product `r * t` is a `DataSize`
whose byte count equals the exact integer
`(r.bps·t.us + 4·10⁶) / (8·10⁶)` with truncating integer division,
bit-exactly as the spec's formula demands. -/
theorem rate_mul_delta_exact (r : DataRate) (t : TimeDelta)
    (hr : r.isFinite = true) (ht : t.isFinite = true)
    (h0 : -9223372036854775808 ≤ r.bps * t.us)
    (h1 : r.bps * t.us + 4000000 ≤ 9223372036854775807) :
    (r.mulDelta t).bytes = specRateTimesDeltaBytes r t := by
  unfold DataRate.mulDelta specRateTimesDeltaBytes
  nth_rewrite 2 [wrap64_id (by unfold i64Min; omega) (by unfold i64Max; omega)]
  rw [wrap64_id (by unfold i64Min; omega) (by unfold i64Max; omega)]

/-- **C8**: witness at `r = 1000 bps`, `t = 1000 µs`: both sides give
`(10⁶ + 4·10⁶)/(8·10⁶) = 0` bytes. -/
theorem rate_mul_delta_exact_witness :
    ((DataRate.isFinite ⟨1000⟩ = true) ∧ (TimeDelta.isFinite ⟨1000⟩ = true) ∧
      -9223372036854775808 ≤ (1000 : Int) * 1000 ∧
      (1000 : Int) * 1000 + 4000000 ≤ 9223372036854775807) ∧
    (DataRate.mulDelta ⟨1000⟩ ⟨1000⟩).bytes = specRateTimesDeltaBytes ⟨1000⟩ ⟨1000⟩ :=
  ⟨⟨by decide, by decide, by decide, by decide⟩,
    rate_mul_delta_exact ⟨1000⟩ ⟨1000⟩ (by decide) (by decide) (by decide) (by decide)⟩

/-- **C6**, counterexample.  The claim says division of a `DataSize` by a
zero or infinite `DataRate` does not panic; but `DataSize / DataRate`
performs the `i64` division `microbits / bps`, which panics when
`bps = 0` (embedded as `none`). -/
theorem division_by_zero_counterexample :
    DataRate.isZero DataRate.zero = true ∧
    DataSize.divRate ⟨1⟩ DataRate.zero = none := by
  constructor
  · decide
  · decide

/-- **C6** (amended): `DataSize / DataRate` and `DataSize / TimeDelta` do
not panic whenever the divisor is nonzero and the division is not the
overflowing `i64::MIN / -1` — in particular division by an *infinite*
divisor is fine, since the infinities are ordinary `i64` sentinel values —
but division by a zero-valued divisor panics. -/
theorem division_no_panic (s : DataSize) (r : DataRate) (t : TimeDelta) :
    (r.bps ≠ 0 → ¬(s.microbits = i64Min ∧ r.bps = -1) →
      (s.divRate r).isSome = true) ∧
    (t.us ≠ 0 → ¬(s.microbits = i64Min ∧ t.us = -1) →
      (s.divDelta t).isSome = true) := by
  constructor
  · intro h0 h1
    unfold DataSize.divRate
    split_ifs with ha hb
    · exact absurd ha h0
    · rcases Bool.and_eq_true .. |>.mp hb with ⟨hb1, hb2⟩
      exact absurd ⟨of_decide_eq_true hb1, of_decide_eq_true hb2⟩ h1
    · rfl
  · intro h0 h1
    unfold DataSize.divDelta
    split_ifs with ha hb
    · exact absurd ha h0
    · rcases Bool.and_eq_true .. |>.mp hb with ⟨hb1, hb2⟩
      exact absurd ⟨of_decide_eq_true hb1, of_decide_eq_true hb2⟩ h1
    · rfl

/-- **C6**: witness — dividing 80 bytes by the infinite rate and by a
1 µs delta both succeed. -/
theorem division_no_panic_witness :
    (DataRate.plusInfinity.bps ≠ 0 ∧ (1 : Int) ≠ 0) ∧
    (DataSize.divRate ⟨80⟩ DataRate.plusInfinity).isSome = true ∧
    (DataSize.divDelta ⟨80⟩ ⟨1⟩).isSome = true :=
  ⟨⟨by decide, by decide⟩,
    (division_no_panic ⟨80⟩ DataRate.plusInfinity ⟨1⟩).1 (by decide) (by decide),
    (division_no_panic ⟨80⟩ DataRate.plusInfinity ⟨1⟩).2 (by decide) (by decide)⟩

/-- **C7**: when `compute_deltas` closes a group against a finite previous
group and the computed arrival-time delta minus the system-time delta is
at least 3 s, the grouper resets both timestamp groups to their initial
state, clears the reorder counter, and returns `false` with no emission. -/
theorem inter_arrival_clock_jump_reset (ia : InterArrivalDelta)
    (send_time arrival_time system_time : Timestamp) (packet_size : Nat)
    (hfirst : ia.current_timestamp_group.isFirstPacket = false)
    (hreo : ¬(ia.current_timestamp_group.first_send_time.us > send_time.us))
    (hnew : ia.newTimestampGroup arrival_time send_time = true)
    (hprev : ia.prev_timestamp_group.complete_time.isFinite = true)
    (hjump : ((ia.current_timestamp_group.complete_time.sub
          ia.prev_timestamp_group.complete_time).sub
        (ia.current_timestamp_group.last_system_time.sub
          ia.prev_timestamp_group.last_system_time)).us ≥ 3000000) :
    ia.computeDeltas send_time arrival_time system_time packet_size =
        ⟨false, ia.reset, none⟩ ∧
      ia.reset.current_timestamp_group = SendTimeGroup.new ∧
      ia.reset.prev_timestamp_group = SendTimeGroup.new ∧
      ia.reset.num_consecutive_reordered_packets = 0 := by
  refine ⟨?_, rfl, rfl, rfl⟩
  unfold InterArrivalDelta.computeDeltas
  rw [if_neg (by simp [hfirst]), if_neg hreo, if_pos hnew, if_pos hprev, if_pos hjump]

/-- **C7**: witness — a concrete state whose group boundary exhibits a
3.5 s arrival-vs-system jump resets and emits nothing. -/
theorem inter_arrival_clock_jump_reset_witness :
    ((⟨⟨5000⟩,
        ⟨1, ⟨0⟩, ⟨0⟩, ⟨0⟩, ⟨0⟩, ⟨0⟩⟩,
        ⟨1, ⟨-5000⟩, ⟨-5000⟩, ⟨-4000000⟩, ⟨-4000000⟩, ⟨-500000⟩⟩,
        0⟩ : InterArrivalDelta).computeDeltas ⟨10000⟩ ⟨4000000⟩ ⟨0⟩ 100 =
      ⟨false,
        (⟨⟨5000⟩,
          ⟨1, ⟨0⟩, ⟨0⟩, ⟨0⟩, ⟨0⟩, ⟨0⟩⟩,
          ⟨1, ⟨-5000⟩, ⟨-5000⟩, ⟨-4000000⟩, ⟨-4000000⟩, ⟨-500000⟩⟩,
          0⟩ : InterArrivalDelta).reset, none⟩) := by
  exact (inter_arrival_clock_jump_reset _ _ _ _ _ (by decide) (by decide) (by decide)
    (by decide) (by decide)).1

/-- **C9**: a reordered packet (`send_time` strictly before the current
group's `first_send_time`, with the group past its first-packet state)
makes `compute_deltas` return `false` and leaves the entire
`InterArrivalDelta` state — both groups and the reorder counter —
unchanged, emitting nothing. -/
theorem inter_arrival_reordered_noop (ia : InterArrivalDelta)
    (send_time arrival_time system_time : Timestamp) (packet_size : Nat)
    (hfirst : ia.current_timestamp_group.isFirstPacket = false)
    (hreo : send_time.us < ia.current_timestamp_group.first_send_time.us) :
    ia.computeDeltas send_time arrival_time system_time packet_size =
      ⟨false, ia, none⟩ := by
  unfold InterArrivalDelta.computeDeltas
  rw [if_neg (by simp [hfirst]), if_pos hreo]

/-- **C9**: witness — a packet sent before the current group's first send
time is dropped without any state change. -/
theorem inter_arrival_reordered_noop_witness :
    ((⟨⟨5000⟩,
        ⟨7, ⟨1000⟩, ⟨2000⟩, ⟨100⟩, ⟨300⟩, ⟨400⟩⟩,
        ⟨3, ⟨-5000⟩, ⟨-4000⟩, ⟨-900⟩, ⟨-800⟩, ⟨-700⟩⟩,
        2⟩ : InterArrivalDelta).computeDeltas ⟨999⟩ ⟨350⟩ ⟨450⟩ 100 =
      ⟨false,
        ⟨⟨5000⟩,
          ⟨7, ⟨1000⟩, ⟨2000⟩, ⟨100⟩, ⟨300⟩, ⟨400⟩⟩,
          ⟨3, ⟨-5000⟩, ⟨-4000⟩, ⟨-900⟩, ⟨-800⟩, ⟨-700⟩⟩,
          2⟩, none⟩) :=
  inter_arrival_reordered_noop _ _ _ _ _ (by decide) (by decide)

end Gcc

namespace Gcc

theorem updateThreshold_preserves (e : TrendlineEstimator) (m : Frac) (now : Int) :
    (e.updateThreshold m now).hypothesis = e.hypothesis ∧
    (e.updateThreshold m now).time_over_using = e.time_over_using ∧
    (e.updateThreshold m now).overuse_counter = e.overuse_counter ∧
    (e.updateThreshold m now).num_of_deltas = e.num_of_deltas ∧
    (e.updateThreshold m now).threshold_gain = e.threshold_gain ∧
    (e.updateThreshold m now).overusing_time_threshold = e.overusing_time_threshold := by
  simp only [TrendlineEstimator.updateThreshold]
  split_ifs <;> exact ⟨rfl, rfl, rfl, rfl, rfl, rfl⟩

theorem detect_preserves (e : TrendlineEstimator) (trend ts : Frac) (now : Int) :
    (e.detect trend ts now).num_of_deltas = e.num_of_deltas ∧
    (e.detect trend ts now).threshold_gain = e.threshold_gain ∧
    (e.detect trend ts now).overusing_time_threshold = e.overusing_time_threshold := by
  simp only [TrendlineEstimator.detect]
  split_ifs <;>
    first
      | exact ⟨rfl, rfl, rfl⟩
      | refine ⟨?_, ?_, ?_⟩ <;>
          simp [updateThreshold_preserves]

theorem detect_overusing (e : TrendlineEstimator) (trend ts : Frac) (now : Int)
    (h : (e.detect trend ts now).hypothesis = BandwidthUsage.overusing) :
    e.hypothesis = BandwidthUsage.overusing ∨
    (2 ≤ e.num_of_deltas ∧
      e.threshold.blt
        (((Frac.ofInt (min e.num_of_deltas 60)).mul trend).mul e.threshold_gain) = true ∧
      e.overusing_time_threshold.blt
        (if e.time_over_using.beq ⟨-1, 1⟩ then ts.div (Frac.ofInt 2)
         else e.time_over_using.add ts) = true ∧
      0 < e.overuse_counter ∧
      e.prev_trend.ble trend = true ∧
      (e.detect trend ts now).time_over_using = ⟨0, 1⟩ ∧
      (e.detect trend ts now).overuse_counter = 0) := by
  by_cases hn : e.num_of_deltas < 2
  · rw [TrendlineEstimator.detect, if_pos hn] at h
    simp at h
  · simp only [TrendlineEstimator.detect] at h ⊢
    rw [if_neg hn] at h
    rw [if_neg hn]
    rw [(updateThreshold_preserves _ _ _).1] at h
    rw [(updateThreshold_preserves _ _ _).2.1, (updateThreshold_preserves _ _ _).2.2.1]
    split_ifs at h ⊢ <;>
      first
        | (rename_i hand hble
           rcases Bool.and_eq_true .. |>.mp hand with ⟨ha, hb⟩
           have hc : 1 < e.overuse_counter + 1 := of_decide_eq_true hb
           exact Or.inr ⟨by omega, by assumption, ha, by omega, hble, rfl, rfl⟩)
        | exact Or.inl (by simpa using h)

theorem update_preserves_constants (e : TrendlineEstimator) (u : TrendlineEstimator.Sample) :
    (e.update u).threshold_gain = e.threshold_gain ∧
    (e.update u).overusing_time_threshold = e.overusing_time_threshold := by
  by_cases hc : u.calculated_deltas = true
  · rw [TrendlineEstimator.update, if_pos hc]
    exact ⟨(detect_preserves _ _ _ _).2.1, (detect_preserves _ _ _ _).2.2⟩
  · rw [TrendlineEstimator.update, if_neg hc]
    exact ⟨rfl, rfl⟩

theorem foldl_constants (l : List TrendlineEstimator.Sample) (e : TrendlineEstimator) :
    (l.foldl TrendlineEstimator.update e).threshold_gain = e.threshold_gain ∧
    (l.foldl TrendlineEstimator.update e).overusing_time_threshold =
      e.overusing_time_threshold := by
  induction l generalizing e with
  | nil => exact ⟨rfl, rfl⟩
  | cons a t ih =>
      refine ⟨?_, ?_⟩
      · exact ((ih (e.update a)).1).trans (update_preserves_constants e a).1
      · exact ((ih (e.update a)).2).trans (update_preserves_constants e a).2

theorem run_constants (settings : TrendlineEstimatorSettings)
    (trace : List TrendlineEstimator.Sample) :
    (TrendlineEstimator.run settings trace).threshold_gain = ⟨4, 1⟩ ∧
    (TrendlineEstimator.run settings trace).overusing_time_threshold = ⟨10, 1⟩ :=
  ⟨(foldl_constants trace _).1, (foldl_constants trace _).2⟩

theorem update_num_normal (e : TrendlineEstimator) (u : TrendlineEstimator.Sample)
    (he : e.num_of_deltas < 2 → e.hypothesis = BandwidthUsage.normal)
    (h : (e.update u).num_of_deltas < 2) :
    (e.update u).hypothesis = BandwidthUsage.normal := by
  by_cases hc : u.calculated_deltas = true
  · rw [TrendlineEstimator.update, if_pos hc] at h ⊢
    have h' : (TrendlineEstimator.detect
        (TrendlineEstimator.pushSample e u.recv_delta_ms u.send_delta_ms u.arrival_time_ms)
        (TrendlineEstimator.trendAfterPush
          (TrendlineEstimator.pushSample e u.recv_delta_ms u.send_delta_ms u.arrival_time_ms))
        u.send_delta_ms u.arrival_time_ms).num_of_deltas < 2 := h
    rw [(detect_preserves _ _ _ _).1] at h'
    show (TrendlineEstimator.detect
        (TrendlineEstimator.pushSample e u.recv_delta_ms u.send_delta_ms u.arrival_time_ms)
        (TrendlineEstimator.trendAfterPush
          (TrendlineEstimator.pushSample e u.recv_delta_ms u.send_delta_ms u.arrival_time_ms))
        u.send_delta_ms u.arrival_time_ms).hypothesis = BandwidthUsage.normal
    rw [TrendlineEstimator.detect, if_pos h']
  · rw [TrendlineEstimator.update, if_neg hc] at h ⊢
    exact he h

theorem foldl_num_normal (l : List TrendlineEstimator.Sample) (e : TrendlineEstimator)
    (he : e.num_of_deltas < 2 → e.hypothesis = BandwidthUsage.normal) :
    (l.foldl TrendlineEstimator.update e).num_of_deltas < 2 →
      (l.foldl TrendlineEstimator.update e).hypothesis = BandwidthUsage.normal := by
  induction l generalizing e with
  | nil => exact he
  | cons a t ih => exact ih (e.update a) (update_num_normal e a he)

theorem run_num_normal (settings : TrendlineEstimatorSettings)
    (trace : List TrendlineEstimator.Sample) :
    (TrendlineEstimator.run settings trace).num_of_deltas < 2 →
      (TrendlineEstimator.run settings trace).hypothesis = BandwidthUsage.normal :=
  foldl_num_normal trace _ (fun _ => rfl)

/-- **C4**: over every trace of `TrendlineEstimator` updates, the
hypothesis becomes `Overusing` only on an update that ran the trendline
with (post-increment) `num_of_deltas ≥ 2`, `modified_trend =
min(num_of_deltas, 60)·trend·4.0` above the threshold, accumulated
`time_over_using` above 10 ms, incremented `overuse_counter` above 1, and
`trend ≥ prev_trend`, upon which the counter and timer are reset; and no
non-`Normal` hypothesis is ever output while `num_of_deltas < 2`. -/
theorem trendline_overuse_gate (settings : TrendlineEstimatorSettings)
    (trace : List TrendlineEstimator.Sample) (u : TrendlineEstimator.Sample) :
    (((TrendlineEstimator.run settings trace).update u).hypothesis =
        BandwidthUsage.overusing →
      (TrendlineEstimator.run settings trace).hypothesis = BandwidthUsage.overusing ∨
      TrendlineEstimator.overuseStepConditions (TrendlineEstimator.run settings trace) u) ∧
    (((TrendlineEstimator.run settings trace).update u).num_of_deltas < 2 →
      ((TrendlineEstimator.run settings trace).update u).hypothesis =
        BandwidthUsage.normal) := by
  constructor
  · intro h
    by_cases hc : u.calculated_deltas = true
    · rw [TrendlineEstimator.update, if_pos hc] at h
      have h' : (TrendlineEstimator.detect
          (TrendlineEstimator.pushSample (TrendlineEstimator.run settings trace)
            u.recv_delta_ms u.send_delta_ms u.arrival_time_ms)
          (TrendlineEstimator.trendAfterPush
            (TrendlineEstimator.pushSample (TrendlineEstimator.run settings trace)
              u.recv_delta_ms u.send_delta_ms u.arrival_time_ms))
          u.send_delta_ms u.arrival_time_ms).hypothesis = BandwidthUsage.overusing := h
      rcases detect_overusing _ _ _ _ h' with hl | ⟨d1, d2, d3, d4, d5, d6, d7⟩
      · exact Or.inl hl
      · have hg : (TrendlineEstimator.pushSample (TrendlineEstimator.run settings trace)
            u.recv_delta_ms u.send_delta_ms u.arrival_time_ms).threshold_gain =
              (⟨4, 1⟩ : Frac) := (run_constants settings trace).1
        have hj : (TrendlineEstimator.pushSample (TrendlineEstimator.run settings trace)
            u.recv_delta_ms u.send_delta_ms u.arrival_time_ms).overusing_time_threshold =
              (⟨10, 1⟩ : Frac) := (run_constants settings trace).2
        rw [hg] at d2
        rw [hj] at d3
        have d6' : ((TrendlineEstimator.run settings trace).update u).time_over_using =
            (⟨0, 1⟩ : Frac) := by
          rw [TrendlineEstimator.update, if_pos hc]; exact d6
        have d7' : ((TrendlineEstimator.run settings trace).update u).overuse_counter = 0 := by
          rw [TrendlineEstimator.update, if_pos hc]; exact d7
        exact Or.inr ⟨hc, d1, d2, d3, d4, d5, d6', d7'⟩
    · rw [TrendlineEstimator.update, if_neg hc] at h
      exact Or.inl h
  · exact fun h => update_num_normal _ u (run_num_normal settings trace) h

/-- **C4**: witness — with a window of 2, three samples with deltas
`(1000, 0)`, `(1000, 0)`, `(1030, 30)` drive the hypothesis from `Normal`
to `Overusing`, and the gate conditions hold at that step. -/
theorem trendline_overuse_gate_witness :
    ((TrendlineEstimator.run
        { TrendlineEstimatorSettings.default with window_size := 2 }
        [⟨⟨1000, 1⟩, ⟨0, 1⟩, 0, 0, 0, true⟩, ⟨⟨1000, 1⟩, ⟨0, 1⟩, 0, 100, 0, true⟩]).update
      ⟨⟨1030, 1⟩, ⟨30, 1⟩, 0, 200, 0, true⟩).hypothesis = BandwidthUsage.overusing ∧
    ((TrendlineEstimator.run
        { TrendlineEstimatorSettings.default with window_size := 2 }
        [⟨⟨1000, 1⟩, ⟨0, 1⟩, 0, 0, 0, true⟩,
         ⟨⟨1000, 1⟩, ⟨0, 1⟩, 0, 100, 0, true⟩]).hypothesis = BandwidthUsage.overusing ∨
      TrendlineEstimator.overuseStepConditions
        (TrendlineEstimator.run
          { TrendlineEstimatorSettings.default with window_size := 2 }
          [⟨⟨1000, 1⟩, ⟨0, 1⟩, 0, 0, 0, true⟩, ⟨⟨1000, 1⟩, ⟨0, 1⟩, 0, 100, 0, true⟩])
        ⟨⟨1030, 1⟩, ⟨30, 1⟩, 0, 200, 0, true⟩) :=
  ⟨by decide,
    (trendline_overuse_gate
      { TrendlineEstimatorSettings.default with window_size := 2 }
      [⟨⟨1000, 1⟩, ⟨0, 1⟩, 0, 0, 0, true⟩, ⟨⟨1000, 1⟩, ⟨0, 1⟩, 0, 100, 0, true⟩]
      ⟨⟨1030, 1⟩, ⟨30, 1⟩, 0, 200, 0, true⟩).1 (by decide)⟩

end Gcc
